import Mathlib

/-!
Verification development for the `fridges_must_die` repository.

The embedding models the level generator (`src/level/mod.rs`,
`generate_level` and the progression systems `level_progress`,
`level_switch`, `level_delete_old`) and the movement resolver
(`src/player.rs`, `player_move`).

Randomness (`rand::thread_rng`) is modelled as an explicit stream of
natural numbers together with a cursor; `gen_range(lo..hi)` consumes one
raw draw `n` and yields `lo + n % (hi - lo)`, which ranges over exactly
the interval `[lo, hi)`.  The rejection-sampling loops of the placement
phase have no iteration bound in the source, so the model takes a fuel
parameter and returns `none` when the fuel is exhausted: a grid is
"returned by the generator" exactly when the model returns `some`.
-/

/-- Modelled from the spec: `DoorInfo.side` of the door subsystem
(`src/level/door.rs` is not part of the sources; the variants
`Top`, `Bottom`, `Left`, `Right` are those used by `generate_level`). -/
inductive DoorType where
  | Top
  | Bottom
  | Left
  | Right
deriving DecidableEq, Repr

/-- Modelled from the spec: door state of the door subsystem
(`Locked`, `TemporaryOpen` are the variants used by `generate_level`;
further externally-managed states are irrelevant to the generator). -/
inductive DoorState where
  | Locked
  | TemporaryOpen
  | Open
  | Closed
deriving DecidableEq, Repr

/-- Modelled from the spec: the `Door` record of the door subsystem,
with the three fields read and written by `generate_level`. -/
structure Door where
  door_type : DoorType
  door_state : DoorState
  grid_pos : Nat
deriving DecidableEq, Repr

/-- Modelled from the spec: the animation kind carried by a
`DoorAnimationFinished` event (`Open` / `Close`). -/
inductive DoorAnimationType where
  | Open
  | Close
deriving DecidableEq, Repr

/-- `CellType` from `src/level/mod.rs`. -/
inductive CellType where
  | Empty
  | Door (d : Door)
  | Column
  | Weapon
  | Enemy
  | Player
deriving DecidableEq, Repr

/-- `GRID_SIZE = (LEVEL_SIZE / COLUMN_SIZE) as usize = (200.0/5.0) as usize`. -/
def GRID_SIZE : Nat := 40

/-- `STRIP_LENGTH` from `src/level/mod.rs`. -/
def STRIP_LENGTH : Nat := 3

/-- `LEVEL_WEAPON_SPAWNS` from `src/level/mod.rs`. -/
def LEVEL_WEAPON_SPAWNS : Nat := 4

/-- `LEVEL_ENEMIES` from `src/level/mod.rs`. -/
def LEVEL_ENEMIES : Nat := 1

/-- `fill_cells = (GRID_SIZE as f32 * GRID_SIZE as f32 * FILL_AMOUNT) as u32`
with `FILL_AMOUNT = 0.02`, i.e. `(40.0 * 40.0 * 0.02) as u32 = 32`. -/
def fill_cells : Nat := 32

/-- `num_strips = fill_cells / STRIP_LENGTH`. -/
def num_strips : Nat := fill_cells / STRIP_LENGTH

/-- The random generator: a stream of raw draws and a cursor. -/
structure Rng where
  stream : Nat → Nat
  idx : Nat

/-- Model of `rng.gen_range(lo..hi)`: consume one raw draw and map it
into `[lo, hi)`. -/
def genRange (lo hi : Nat) (r : Rng) : Nat × Rng :=
  (lo + r.stream r.idx % (hi - lo), ⟨r.stream, r.idx + 1⟩)

/-- The level grid, row major: `grid[y][x]`. -/
abbrev Grid : Type := List (List CellType)

/-- Read `grid[y][x]` (out-of-range reads, which the source never
performs, default to `Empty`). -/
def gridGet (g : Grid) (y x : Nat) : CellType :=
  ((g : List (List CellType)).getD y []).getD x .Empty

/-- Write `grid[y][x] = c` (no-op out of range, as for `List.set`). -/
def gridSet (g : Grid) (y x : Nat) (c : CellType) : Grid :=
  (g : List (List CellType)).set y (((g : List (List CellType)).getD y []).set x c)

/-- The all-`Empty` starting grid `[[CellType::Empty; GRID_SIZE]; GRID_SIZE]`. -/
def initGrid : Grid := List.replicate GRID_SIZE (List.replicate GRID_SIZE CellType.Empty)

/-- "generate border": the four write loops over row `0`, row
`GRID_SIZE-1`, column `0`, column `GRID_SIZE-1`. -/
def borderPhase (g : Grid) : Grid :=
  let g1 := (List.range GRID_SIZE).foldl (fun g x => gridSet g 0 x .Column) g
  let g2 := (List.range GRID_SIZE).foldl (fun g x => gridSet g (GRID_SIZE - 1) x .Column) g1
  let g3 := (List.range GRID_SIZE).foldl (fun g y => gridSet g y 0 .Column) g2
  (List.range GRID_SIZE).foldl (fun g y => gridSet g y (GRID_SIZE - 1) .Column) g3

/-- The four door writes at the end of the door phase. -/
def placeDoors (g : Grid) (tp : Nat) (ts : DoorState) (bp : Nat) (bs : DoorState)
    (lp : Nat) (ls : DoorState) (rp : Nat) (rs : DoorState) : Grid :=
  let g1 := gridSet g 0 tp (.Door ⟨.Top, ts, tp⟩)
  let g2 := gridSet g1 (GRID_SIZE - 1) bp (.Door ⟨.Bottom, bs, bp⟩)
  let g3 := gridSet g2 lp 0 (.Door ⟨.Left, ls, lp⟩)
  gridSet g3 rp (GRID_SIZE - 1) (.Door ⟨.Right, rs, rp⟩)

/-- "generate doors": four position draws in `[2, GRID_SIZE-2)`, the
continuity override from `previus_door`, the first-level player
placement, and the four door writes. -/
def doorsPhase (previus_door : Option Door) (g : Grid) (r : Rng) : Grid × Rng :=
  let (door_top_pos, r1) := genRange 2 (GRID_SIZE - 2) r
  let (door_bottom_pos, r2) := genRange 2 (GRID_SIZE - 2) r1
  let (door_left_pos, r3) := genRange 2 (GRID_SIZE - 2) r2
  let (door_right_pos, r4) := genRange 2 (GRID_SIZE - 2) r3
  match previus_door with
  | none =>
      let g1 := gridSet g 1 door_top_pos .Player
      (placeDoors g1 door_top_pos .Locked door_bottom_pos .Locked
        door_left_pos .Locked door_right_pos .Locked, r4)
  | some door =>
      match door.door_type with
      | .Top =>
          (placeDoors g door_top_pos .Locked door.grid_pos .TemporaryOpen
            door_left_pos .Locked door_right_pos .Locked, r4)
      | .Bottom =>
          (placeDoors g door.grid_pos .TemporaryOpen door_bottom_pos .Locked
            door_left_pos .Locked door_right_pos .Locked, r4)
      | .Left =>
          (placeDoors g door_top_pos .Locked door_bottom_pos .Locked
            door_left_pos .Locked door.grid_pos .TemporaryOpen, r4)
      | .Right =>
          (placeDoors g door_top_pos .Locked door_bottom_pos .Locked
            door.grid_pos .TemporaryOpen door_right_pos .Locked, r4)

/-- The neighbor offsets `[(-1, 0), (1, 0), (0, -1), (0, 1)]`
(as `(x_mod, y_mod)` pairs). -/
def strip_mods : List (Int × Int) := [(-1, 0), (1, 0), (0, -1), (0, 1)]

/-- The filter of valid next positions of the random walk: orthogonal
neighbors `(next_x, next_y)` with `2 <= next_x < GRID_SIZE-2` and
`2 <= next_y < GRID_SIZE-2`. -/
def valid_positions (cx cy : Int) : List (Int × Int) :=
  strip_mods.filterMap (fun m =>
    let nx := cx + m.1
    let ny := cy + m.2
    if nx < 2 ∨ (GRID_SIZE : Int) - 2 ≤ nx ∨ ny < 2 ∨ (GRID_SIZE : Int) - 2 ≤ ny then none
    else some (nx, ny))

/-- The `STRIP_LENGTH`-step random walk of one obstacle strip, breaking
early when no valid neighbor exists. -/
def strip_walk (g : Grid) (cx cy : Int) (r : Rng) : Nat → Grid × Rng
  | 0 => (g, r)
  | n + 1 =>
    let valid := valid_positions cx cy
    if valid.isEmpty then (g, r)
    else
      let (i, r') := genRange 0 valid.length r
      let p := valid.getD i (2, 2)
      strip_walk (gridSet g p.2.toNat p.1.toNat .Column) p.1 p.2 r' n

/-- The body of the strip loop of "generate walls": one random interior
seed cell, marked `Column`, then the `STRIP_LENGTH`-step random walk. -/
def wallsStripStep (gr : Grid × Rng) : Grid × Rng :=
  let (x, r1) := genRange 2 (GRID_SIZE - 2) gr.2
  let (y, r2) := genRange 2 (GRID_SIZE - 2) r1
  let g1 := gridSet gr.1 y x .Column
  strip_walk g1 (Int.ofNat x) (Int.ofNat y) r2 STRIP_LENGTH

/-- "generate walls": `num_strips` strips, each seeded at a random
interior cell and extended by a `STRIP_LENGTH`-step random walk. -/
def wallsPhase (g : Grid) (r : Rng) : Grid × Rng :=
  (List.range num_strips).foldl (fun gr _ => wallsStripStep gr) (g, r)

/-- One cell check of the pocket-elimination pass. -/
def pocketStep (g : Grid) (y x : Nat) : Grid :=
  if gridGet g y x = .Empty ∧ gridGet g (y - 1) x = .Column ∧
      gridGet g (y + 1) x = .Column ∧ gridGet g y (x + 1) = .Column ∧
      gridGet g y (x - 1) = .Column
  then gridSet g y x .Column else g

/-- The interior index range of the pocket pass, `[2, GRID_SIZE-2)`. -/
def interiorRange : List Nat := List.range' 2 (GRID_SIZE - 4)

/-- The row-major pocket-elimination pass over `[2, GRID_SIZE-2)^2`. -/
def pocketPhase (g : Grid) : Grid :=
  interiorRange.foldl (fun g y => interiorRange.foldl (fun g x => pocketStep g y x) g) g

/-- The rejection-sampling loop of the placement phase: draw interior
cells `(x, y)` until one is `Empty`; `none` when the fuel runs out
(the source loop is unbounded). -/
def find_empty_cell (g : Grid) (r : Rng) : Nat → Option (Nat × Nat × Rng)
  | 0 => none
  | fuel + 1 =>
    let (x, r1) := genRange 2 (GRID_SIZE - 2) r
    let (y, r2) := genRange 2 (GRID_SIZE - 2) r1
    if gridGet g y x = .Empty then some (x, y, r2) else find_empty_cell g r2 fuel

/-- Stamp `count` cells of kind `c`, each found by rejection sampling. -/
def placePhase (c : CellType) (count : Nat) (g : Grid) (r : Rng) (fuel : Nat) :
    Option (Grid × Rng) :=
  match count with
  | 0 => some (g, r)
  | n + 1 =>
    match find_empty_cell g r fuel with
    | none => none
    | some (x, y, r') => placePhase c n (gridSet g y x c) r' fuel

/-- `generate_level` up to (and including) the pocket-elimination pass:
border, doors, obstacle strips, pocket elimination. -/
def prePlacement (previus_door : Option Door) (r : Rng) : Grid × Rng :=
  (pocketPhase (wallsPhase (doorsPhase previus_door (borderPhase initGrid) r).1
      (doorsPhase previus_door (borderPhase initGrid) r).2).1,
   (wallsPhase (doorsPhase previus_door (borderPhase initGrid) r).1
      (doorsPhase previus_door (borderPhase initGrid) r).2).2)

/-- `generate_level` from `src/level/mod.rs`: all phases in source
order; `some` exactly when both rejection-sampling phases terminate
within the given fuel. -/
def generate_level (previus_door : Option Door) (r : Rng) (fuel : Nat) : Option Grid :=
  match placePhase .Weapon LEVEL_WEAPON_SPAWNS (prePlacement previus_door r).1
      (prePlacement previus_door r).2 fuel with
  | none => none
  | some (g3, r3) =>
    match placePhase .Enemy LEVEL_ENEMIES g3 r3 fuel with
    | none => none
    | some (g4, _) => some g4

/-! ## Movement resolver (`player_move`, `src/player.rs`) -/

/-- 3-vector over the rationals (the source uses `f32`; the resolver's
algebra — `+`, `*`, `dot`, `cross` — is modelled exactly over `ℚ`). -/
structure Vec3 where
  x : ℚ
  y : ℚ
  z : ℚ
deriving DecidableEq, Repr

instance : Add Vec3 := ⟨fun a b => ⟨a.x + b.x, a.y + b.y, a.z + b.z⟩⟩

/-- `Vec3::ZERO`. -/
def Vec3.zero : Vec3 := ⟨0, 0, 0⟩

/-- `Vec3::Z`, the fixed up-axis. -/
def Vec3.zUnit : Vec3 := ⟨0, 0, 1⟩

/-- Scalar multiple `k * v`. -/
def Vec3.smul (k : ℚ) (v : Vec3) : Vec3 := ⟨k * v.x, k * v.y, k * v.z⟩

/-- Dot product. -/
def Vec3.dot (a b : Vec3) : ℚ := a.x * b.x + a.y * b.y + a.z * b.z

/-- Cross product. -/
def Vec3.cross (a b : Vec3) : Vec3 :=
  ⟨a.y * b.z - a.z * b.y, a.z * b.x - a.x * b.z, a.x * b.y - a.y * b.x⟩

/-- `rapier`'s `TOIStatus` as matched by `player_move`. -/
inductive TOIStatus where
  | Converged
  | OutOfIterations
  | Failed
  | Penetrating
deriving DecidableEq, Repr

/-- The contact details of a shape-cast hit (`hit.details`, an `Option`
in the source; `player_move` reads `normal1`). -/
structure ToiDetails where
  normal1 : Vec3
deriving DecidableEq, Repr

/-- The shape-cast hit record (`hit.status`, `hit.details`). -/
structure Toi where
  status : TOIStatus
  details : Option ToiDetails
deriving DecidableEq, Repr

/-- The swept-shape query `rapier_context.cast_shape`, abstracted over
the two arguments that vary across resolver passes: `shape_pos`
(`transform.translation + movement`) and `shape_vel` (`movement`).
The shape, rotation, `max_toi` and filter are fixed for the tick. -/
def CastFn : Type := Vec3 → Vec3 → Option Toi

/-- The resolver loop `for i in 0..4` of `player_move`, carrying the
current tentative `movement`.  Returns the final value of
`transform.translation`; `none` models the `hit.details.unwrap()`
panic on a detail-less converged hit. -/
def player_move_loop (cast : CastFn) (translation : Vec3) :
    List Nat → Vec3 → Option Vec3
  | [], movement => some (translation + movement)
  | i :: rest, movement =>
    match cast (translation + movement) movement with
    | none => player_move_loop cast translation rest movement
    | some hit =>
      match hit.status with
      | .Converged =>
        if i = 3 then
          some (translation + Vec3.zero)
        else
          match hit.details with
          | none => none
          | some details =>
            let wall_parrallel := details.normal1.cross Vec3.zUnit
            player_move_loop cast translation rest
              (Vec3.smul (wall_parrallel.dot movement) wall_parrallel)
      | .Penetrating => some translation
      | _ => player_move_loop cast translation rest movement

/-- `player_move` for one tick: tentative displacement
`velocity * delta_seconds`, then up to 4 resolver passes, then
`transform.translation += movement`. -/
def player_move (cast : CastFn) (translation velocity : Vec3) (dt : ℚ) : Option Vec3 :=
  player_move_loop cast translation [0, 1, 2, 3] (Vec3.smul dt velocity)

/-! ## Progression systems (`level_progress`, `level_switch`,
`level_delete_old`, `src/level/mod.rs`) -/

/-- The fields of `LevelState` the progression systems use
(`translation` is irrelevant to the claims). -/
structure LevelState where
  finished : Bool
  old_level_objects : List Nat
deriving DecidableEq, Repr

/-- One `Update` run of `level_progress`: reading the queued
`LevelStarted` events resets `finished`; then, when no enemies remain
and the level is not yet finished, mark it finished and send
`LevelFinished`.  Returns the new state and whether `LevelFinished`
was sent. -/
def level_progress (remaining_enemies : Nat) (started_events : List Unit)
    (st : LevelState) : LevelState × Bool :=
  let st := if started_events.isEmpty then st else { st with finished := false }
  if remaining_enemies = 0 ∧ st.finished = false then
    ({ st with finished := true }, true)
  else (st, false)

/-- One tick of a `level_progress` run: advance the state and add one
to the count of `LevelFinished` events when one was sent. -/
def progressStep (acc : LevelState × Nat) (t : List Unit × Nat) :
    LevelState × Nat :=
  let r := level_progress t.2 t.1 acc.1
  (r.1, acc.2 + if r.2 then 1 else 0)

/-- A run of `level_progress` over a sequence of ticks, each given by
its queued `LevelStarted` events and the live enemy count; counts the
`LevelFinished` events sent. -/
def level_progress_run (st : LevelState) (ticks : List (List Unit × Nat)) :
    LevelState × Nat :=
  ticks.foldl progressStep (st, 0)

/-- A world entity: its `Entity` id and whether it carries the
`LevelObject` tag. -/
structure WEntity where
  id : Nat
  levelObject : Bool
deriving DecidableEq, Repr

/-- The live entities of the world. -/
structure World where
  entities : List WEntity
deriving DecidableEq, Repr

/-- The `Query<Entity, With<LevelObject>>` of `level_switch`. -/
def levelObjectsQuery (w : World) : List Nat :=
  (w.entities.filter (fun e => e.levelObject)).map (fun e => e.id)

/-- One `LevelSwitch` event processed by `level_switch`: snapshot the
tagged level geometry into `old_level_objects`, spawn the next level
(`newObjs`, abstracting `spawn_level`/`spawn_level_sun`), and record
the snapshot.  Nothing is despawned. -/
def level_switch_step (newObjs : List WEntity) (ws : World × LevelState) :
    World × LevelState :=
  let snapshot := levelObjectsQuery ws.1
  (⟨ws.1.entities ++ newObjs⟩, { ws.2 with old_level_objects := snapshot })

/-- One `Update` run of `level_switch` over its queued events. -/
def level_switch (newObjs : List WEntity) (ws : World × LevelState)
    (events : List Unit) : World × LevelState :=
  events.foldl (fun ws _ => level_switch_step newObjs ws) ws

/-- One `DoorAnimationFinished` event processed by `level_delete_old`.
On `Close`, every handle in `old_level_objects` is despawned via
`commands.get_entity(*object).unwrap().despawn_recursive()`: the
`unwrap` panics (modelled as `none`) when a handle's entity no longer
exists; otherwise the batch is despawned and cleared.  `Open` does
nothing. -/
def level_delete_old_step (ws : World × LevelState) (ev : DoorAnimationType) :
    Option (World × LevelState) :=
  match ev with
  | .Open => some ws
  | .Close =>
    if ws.2.old_level_objects.all (fun id => ws.1.entities.any (fun e => e.id = id)) then
      some (⟨ws.1.entities.filter (fun e => ¬ ws.2.old_level_objects.contains e.id)⟩,
            { ws.2 with old_level_objects := [] })
    else none

/-- One `Update` run of `level_delete_old` over its queued events. -/
def level_delete_old (ws : World × LevelState) (events : List DoorAnimationType) :
    Option (World × LevelState) :=
  events.foldl
    (fun acc ev =>
      match acc with
      | none => none
      | some ws => level_delete_old_step ws ev)
    (some ws)

/-! ## Statement vocabulary -/

/-- A property of every grid the generator returns (`none`, the
fuel-exhausted rejection-sampling loop, returns no grid). -/
def optionAll (P : Grid → Prop) : Option Grid → Prop
  | none => True
  | some g => P g

/-- Whether a cell is a `Door` cell. -/
def CellType.isDoor : CellType → Bool
  | .Door _ => true
  | _ => false

/-- The side opposite a door's side. -/
def DoorType.opposite : DoorType → DoorType
  | .Top => .Bottom
  | .Bottom => .Top
  | .Left => .Right
  | .Right => .Left

/-- The border cell of side `s` at position `p` along that side. -/
def sideCell (g : Grid) : DoorType → Nat → CellType
  | .Top, p => gridGet g 0 p
  | .Bottom, p => gridGet g (GRID_SIZE - 1) p
  | .Left, p => gridGet g p 0
  | .Right, p => gridGet g p (GRID_SIZE - 1)

/-- An arbitrary previous exit door: side `dt`, state `ds`, and border
position `2 + p % (GRID_SIZE - 4)` — exactly the positions
`[2, GRID_SIZE - 2)` a generated door can occupy. -/
def mkPrevDoor (dt : DoorType) (ds : DoorState) (p : Nat) : Door :=
  ⟨dt, ds, 2 + p % (GRID_SIZE - 4)⟩

/-- Encode an arbitrary `previus_door` argument of the generator from
raw data: `none`, or a door with any side, any state and any border
position in `[2, GRID_SIZE - 2)` (via `mkPrevDoor`). -/
def prevOf : Option (DoorType × DoorState × Nat) → Option Door
  | none => none
  | some t => some (mkPrevDoor t.1 t.2.1 t.2.2)

/-- The border invariant: on each of the four sides exactly one cell is
a `Door`, at an index in `[2, GRID_SIZE-2)`, and every other cell of
the outer ring is a `Column` (wall). -/
def borderOk (g : Grid) : Prop :=
  ∃ tp bp lp rp : Nat,
    (2 ≤ tp ∧ tp < GRID_SIZE - 2) ∧ (2 ≤ bp ∧ bp < GRID_SIZE - 2) ∧
    (2 ≤ lp ∧ lp < GRID_SIZE - 2) ∧ (2 ≤ rp ∧ rp < GRID_SIZE - 2) ∧
    (∀ x, x < GRID_SIZE →
      if x = tp then (gridGet g 0 x).isDoor = true else gridGet g 0 x = .Column) ∧
    (∀ x, x < GRID_SIZE →
      if x = bp then (gridGet g (GRID_SIZE - 1) x).isDoor = true
      else gridGet g (GRID_SIZE - 1) x = .Column) ∧
    (∀ y, y < GRID_SIZE →
      if y = lp then (gridGet g y 0).isDoor = true else gridGet g y 0 = .Column) ∧
    (∀ y, y < GRID_SIZE →
      if y = rp then (gridGet g y (GRID_SIZE - 1)).isDoor = true
      else gridGet g y (GRID_SIZE - 1) = .Column)

/-- Cell count of a grid under a boolean cell predicate. -/
def countCells (g : Grid) (p : CellType → Bool) : Nat :=
  (g : List (List CellType)).foldr (fun row acc => row.countP p + acc) 0

/-- Shape invariant: `GRID_SIZE` rows of `GRID_SIZE` cells. -/
def gridWF (g : Grid) : Prop :=
  (g : List (List CellType)).length = GRID_SIZE ∧
  ∀ row ∈ (g : List (List CellType)), row.length = GRID_SIZE

/-- The region `[2, GRID_SIZE-2)^2` touched by the obstacle, pocket and
placement phases. -/
def Interior (y x : Nat) : Prop :=
  2 ≤ y ∧ y < GRID_SIZE - 2 ∧ 2 ≤ x ∧ x < GRID_SIZE - 2

/-- The first draw of `gen_range(2..GRID_SIZE-2)` from `r`. -/
def draw1 (r : Rng) : Nat := (genRange 2 (GRID_SIZE - 2) r).1

/-- The generator state after one `gen_range(2..GRID_SIZE-2)` draw. -/
def rng1 (r : Rng) : Rng := (genRange 2 (GRID_SIZE - 2) r).2

/-- Cells outside the interior region are untouched. -/
def OffInterior (g g' : Grid) : Prop :=
  ∀ y x, ¬ Interior y x → gridGet g' y x = gridGet g y x

/-- Every changed cell was changed to `Column`. -/
def OnlyColumn (g g' : Grid) : Prop :=
  ∀ y x, gridGet g' y x = gridGet g y x ∨ gridGet g' y x = .Column

/-- `Column` cells are never changed back. -/
def ColumnPersists (g g' : Grid) : Prop :=
  ∀ y x, gridGet g y x = .Column → gridGet g' y x = .Column

/-- A cell that ends `Empty` was already `Empty`. -/
def EmptyWasEmpty (g g' : Grid) : Prop :=
  ∀ y x, gridGet g' y x = .Empty → gridGet g y x = .Empty

/-- Every changed cell was `Empty` and became `c`. -/
def OnlyOnEmpty (c : CellType) (g g' : Grid) : Prop :=
  ∀ y x, gridGet g' y x ≠ gridGet g y x → gridGet g y x = .Empty ∧ gridGet g' y x = c

/-- No cell of the grid satisfies `p`. -/
def noCells (g : Grid) (p : CellType → Bool) : Prop :=
  ∀ y x, y < GRID_SIZE → x < GRID_SIZE → p (gridGet g y x) = false

/-- Whether a cell is the `Weapon` (pickup-spawn) cell. -/
def CellType.isWeapon : CellType → Bool
  | .Weapon => true
  | _ => false

/-- Whether a cell is the `Enemy` (hostile-spawn) cell. -/
def CellType.isEnemy : CellType → Bool
  | .Enemy => true
  | _ => false

/-- The pocket condition: an `Empty` cell whose four orthogonal
neighbors are all `Column`. -/
def trappedEmpty (g : Grid) (y x : Nat) : Prop :=
  gridGet g y x = .Empty ∧ gridGet g (y - 1) x = .Column ∧
  gridGet g (y + 1) x = .Column ∧ gridGet g y (x + 1) = .Column ∧
  gridGet g y (x - 1) = .Column

/-- The row-major list of cells visited by the pocket-elimination pass. -/
def pocketPairs : List (Nat × Nat) :=
  interiorRange.bind (fun y => interiorRange.map (fun x => (y, x)))

/-- `(qy, qx)` is one of the four orthogonal neighbors of `(py, px)`. -/
def adjacent (py px qy qx : Nat) : Prop :=
  (qy + 1 = py ∧ qx = px) ∨ (py + 1 = qy ∧ qx = px) ∨
  (qy = py ∧ qx + 1 = px) ∨ (qy = py ∧ px + 1 = qx)

/-! ## Basic list and grid lemmas -/

theorem listGetD_lt {α} {l : List α} {d : α} {n : Nat} (h : n < l.length) :
    l.getD n d = l[n] := by
  simp [List.getD_eq_getElem?_getD, List.getElem?_eq_getElem h]

theorem listGetD_le {α} {l : List α} {d : α} {n : Nat} (h : l.length ≤ n) :
    l.getD n d = d := by
  simp [List.getD_eq_getElem?_getD, List.getElem?_eq_none h]

theorem listGetD_set_ne {α} {l : List α} {a d : α} {m n : Nat} (h : m ≠ n) :
    (l.set m a).getD n d = l.getD n d := by
  simp [List.getD_eq_getElem?_getD, List.getElem?_set_ne h]

theorem listGetD_set_eq {α} {l : List α} {a d : α} {n : Nat} (h : n < l.length) :
    (l.set n a).getD n d = a := by
  simp [List.getD_eq_getElem?_getD, List.getElem?_set_eq_of_lt _ h]

theorem listGetD_replicate {α} {c d : α} {n i : Nat} (h : i < n) :
    (List.replicate n c).getD i d = c := by
  simp [List.getD_eq_getElem?_getD, List.getElem?_replicate, h]

theorem gridSet_length (g : Grid) (y x : Nat) (c : CellType) :
    (gridSet g y x c).length = g.length := by
  simp [gridSet]

theorem gridSet_of_length_le {g : Grid} {y : Nat} (h : g.length ≤ y) (x : Nat)
    (c : CellType) : gridSet g y x c = g := by
  unfold gridSet
  exact List.set_eq_of_length_le h

theorem gridWF_set {g : Grid} (hwf : gridWF g) (y x : Nat) (c : CellType) :
    gridWF (gridSet g y x c) := by
  obtain ⟨hlen, hrow⟩ := hwf
  by_cases hy : y < g.length
  · refine ⟨by simpa [gridSet] using hlen, ?_⟩
    intro row hmem
    rcases List.mem_or_eq_of_mem_set hmem with h | h
    · exact hrow row h
    · subst h
      rw [List.length_set]
      exact hrow _ (by rw [listGetD_lt hy]; exact List.getElem_mem hy)
  · rw [gridSet_of_length_le (by omega)]
    exact ⟨hlen, hrow⟩

theorem gridGet_set_ne (g : Grid) (c : CellType) {y x y' x' : Nat}
    (h : y ≠ y' ∨ x ≠ x') :
    gridGet (gridSet g y x c) y' x' = gridGet g y' x' := by
  unfold gridGet gridSet
  by_cases hy : y < g.length
  · by_cases hyy : y = y'
    · subst hyy
      have hx : x ≠ x' := by tauto
      rw [listGetD_set_eq hy, listGetD_set_ne hx]
    · rw [listGetD_set_ne hyy]
  · rw [List.set_eq_of_length_le (by omega)]

theorem gridGet_set_eq {g : Grid} (hwf : gridWF g) (c : CellType) {y x : Nat}
    (hy : y < GRID_SIZE) (hx : x < GRID_SIZE) :
    gridGet (gridSet g y x c) y x = c := by
  obtain ⟨hlen, hrow⟩ := hwf
  have hy' : y < g.length := by omega
  have hxrow : x < (g.getD y []).length := by
    rw [listGetD_lt hy', hrow _ (List.getElem_mem hy')]
    exact hx
  unfold gridGet gridSet
  rw [listGetD_set_eq hy', listGetD_set_eq hxrow]

theorem gridWF_initGrid : gridWF initGrid := by
  constructor
  · simp [initGrid]
  · intro row hmem
    rw [List.eq_of_mem_replicate hmem]
    simp

theorem gridGet_initGrid (y x : Nat) : gridGet initGrid y x = .Empty := by
  unfold gridGet initGrid
  by_cases hy : y < GRID_SIZE
  · rw [listGetD_replicate hy]
    by_cases hx : x < GRID_SIZE
    · rw [listGetD_replicate hx]
    · rw [listGetD_le (by simpa using Nat.le_of_not_lt hx)]
  · have houter :
        (List.replicate GRID_SIZE (List.replicate GRID_SIZE CellType.Empty)).getD y
          ([] : List CellType) = [] :=
      listGetD_le (by simpa using Nat.le_of_not_lt hy)
    rw [houter]
    rfl

theorem genRange_lo_le (lo hi : Nat) (r : Rng) : lo ≤ (genRange lo hi r).1 := by
  simp [genRange]

theorem genRange_lt (lo hi : Nat) (r : Rng) (h : lo < hi) :
    (genRange lo hi r).1 < hi := by
  have := Nat.mod_lt (r.stream r.idx) (y := hi - lo) (by omega)
  simp only [genRange]
  omega

/-! ## Phase-transition relations -/

theorem foldl_inv {σ β : Type} (I : σ → Prop) {l : List β} {step : σ → β → σ}
    (hstep : ∀ s b, b ∈ l → I s → I (step s b)) {s : σ} (hI : I s) :
    I (l.foldl step s) := by
  induction l generalizing s with
  | nil => exact hI
  | cons a t ih =>
    exact ih (fun s b hb => hstep s b (List.mem_cons_of_mem _ hb))
      (hstep s a (List.mem_cons_self _ _) hI)

theorem OffInterior.offTrans {a b c : Grid} (h1 : OffInterior a b) (h2 : OffInterior b c) :
    OffInterior a c := fun y x h => (h2 y x h).trans (h1 y x h)

theorem OffInterior.offRefl (g : Grid) : OffInterior g g := fun _ _ _ => rfl

theorem OnlyColumn.colTrans {a b c : Grid} (h1 : OnlyColumn a b) (h2 : OnlyColumn b c) :
    OnlyColumn a c := by
  intro y x
  rcases h2 y x with h | h
  · rw [h]; exact h1 y x
  · exact Or.inr h

theorem OnlyColumn.colRefl (g : Grid) : OnlyColumn g g := fun _ _ => Or.inl rfl

/-! ## Obstacle-strip phase -/

theorem valid_positions_bounds {cx cy : Int} {q : Int × Int}
    (h : q ∈ valid_positions cx cy) :
    2 ≤ q.1 ∧ q.1 < (GRID_SIZE : Int) - 2 ∧ 2 ≤ q.2 ∧ q.2 < (GRID_SIZE : Int) - 2 := by
  unfold valid_positions at h
  obtain ⟨m, _, heq⟩ := List.mem_filterMap.mp h
  simp only [] at heq
  split at heq
  · exact absurd heq (by simp)
  · next hcond =>
    push_neg at hcond
    obtain ⟨h1, h2, h3, h4⟩ := hcond
    obtain rfl : (cx + m.1, cy + m.2) = q := by
      simpa using heq
    exact ⟨h1, h2, h3, h4⟩

theorem valid_positions_getD_bounds (cx cy : Int) (i : Nat) :
    2 ≤ ((valid_positions cx cy).getD i (2, 2)).1 ∧
    ((valid_positions cx cy).getD i (2, 2)).1 < (GRID_SIZE : Int) - 2 ∧
    2 ≤ ((valid_positions cx cy).getD i (2, 2)).2 ∧
    ((valid_positions cx cy).getD i (2, 2)).2 < (GRID_SIZE : Int) - 2 := by
  by_cases h : i < (valid_positions cx cy).length
  · rw [listGetD_lt h]
    exact valid_positions_bounds (List.getElem_mem h)
  · rw [listGetD_le (by omega)]
    norm_num [GRID_SIZE]

theorem strip_walk_stop (g : Grid) (cx cy : Int) (r : Rng) (n : Nat)
    (h : (valid_positions cx cy).isEmpty = true) :
    strip_walk g cx cy r (n + 1) = (g, r) := by
  rw [strip_walk, if_pos h]

theorem strip_walk_succ (g : Grid) (cx cy : Int) (r : Rng) (n : Nat)
    (h : (valid_positions cx cy).isEmpty = false) :
    strip_walk g cx cy r (n + 1) =
      strip_walk
        (gridSet g
          (((valid_positions cx cy).getD
            (genRange 0 (valid_positions cx cy).length r).1 (2, 2)).2.toNat)
          (((valid_positions cx cy).getD
            (genRange 0 (valid_positions cx cy).length r).1 (2, 2)).1.toNat)
          .Column)
        (((valid_positions cx cy).getD
          (genRange 0 (valid_positions cx cy).length r).1 (2, 2)).1)
        (((valid_positions cx cy).getD
          (genRange 0 (valid_positions cx cy).length r).1 (2, 2)).2)
        (genRange 0 (valid_positions cx cy).length r).2 n := by
  rw [strip_walk, if_neg (by simp [h])]

theorem strip_walk_spec (n : Nat) (g : Grid) (cx cy : Int) (r : Rng) (hwf : gridWF g) :
    gridWF (strip_walk g cx cy r n).1 ∧ OffInterior g (strip_walk g cx cy r n).1 ∧
    OnlyColumn g (strip_walk g cx cy r n).1 := by
  induction n generalizing g cx cy r with
  | zero => exact ⟨hwf, OffInterior.offRefl g, OnlyColumn.colRefl g⟩
  | succ n ih =>
    rcases hB : (valid_positions cx cy).isEmpty with _ | _
    · rw [strip_walk_succ g cx cy r n hB]
      obtain ⟨hb1, hb2, hb3, hb4⟩ :=
        valid_positions_getD_bounds cx cy (genRange 0 (valid_positions cx cy).length r).1
      have hG : GRID_SIZE = 40 := rfl
      set q := (valid_positions cx cy).getD
        (genRange 0 (valid_positions cx cy).length r).1 (2, 2) with hq
      have hxlt : q.1.toNat < GRID_SIZE := by omega
      have hylt : q.2.toNat < GRID_SIZE := by omega
      have hint : Interior q.2.toNat q.1.toNat := by
        unfold Interior
        omega
      have hwf' : gridWF (gridSet g q.2.toNat q.1.toNat .Column) := gridWF_set hwf _ _ _
      obtain ⟨ih1, ih2, ih3⟩ :=
        ih (gridSet g q.2.toNat q.1.toNat .Column) q.1 q.2
          (genRange 0 (valid_positions cx cy).length r).2 hwf'
      refine ⟨ih1, ?_, ?_⟩
      · intro y x hni
        rw [ih2 y x hni]
        refine gridGet_set_ne g _ ?_
        by_contra hcon
        push_neg at hcon
        exact hni (hcon.1 ▸ hcon.2 ▸ hint)
      · intro y x
        rcases ih3 y x with h | h
        · rw [h]
          by_cases hc : q.2.toNat = y ∧ q.1.toNat = x
          · right
            rw [← hc.1, ← hc.2]
            exact gridGet_set_eq hwf _ hylt hxlt
          · left
            exact gridGet_set_ne g _ (by tauto)
        · exact Or.inr h
    · rw [strip_walk_stop g cx cy r n hB]
      exact ⟨hwf, OffInterior.offRefl g, OnlyColumn.colRefl g⟩

theorem wallsStripStep_eq (s : Grid × Rng) :
    wallsStripStep s =
      strip_walk
        (gridSet s.1 (genRange 2 (GRID_SIZE - 2) (genRange 2 (GRID_SIZE - 2) s.2).2).1
          (genRange 2 (GRID_SIZE - 2) s.2).1 .Column)
        (Int.ofNat (genRange 2 (GRID_SIZE - 2) s.2).1)
        (Int.ofNat (genRange 2 (GRID_SIZE - 2) (genRange 2 (GRID_SIZE - 2) s.2).2).1)
        (genRange 2 (GRID_SIZE - 2) (genRange 2 (GRID_SIZE - 2) s.2).2).2
        STRIP_LENGTH := rfl

theorem wallsStripStep_spec (s : Grid × Rng) (hwf : gridWF s.1) :
    gridWF (wallsStripStep s).1 ∧ OffInterior s.1 (wallsStripStep s).1 ∧
    OnlyColumn s.1 (wallsStripStep s).1 := by
  rw [wallsStripStep_eq]
  have hG : GRID_SIZE = 40 := rfl
  set x := (genRange 2 (GRID_SIZE - 2) s.2).1 with hx
  set r1 := (genRange 2 (GRID_SIZE - 2) s.2).2 with hr1
  set y := (genRange 2 (GRID_SIZE - 2) r1).1 with hy
  set r2 := (genRange 2 (GRID_SIZE - 2) r1).2 with hr2
  have hxlo : 2 ≤ x := genRange_lo_le 2 (GRID_SIZE - 2) s.2
  have hxhi : x < GRID_SIZE - 2 := genRange_lt 2 (GRID_SIZE - 2) s.2 (by omega)
  have hylo : 2 ≤ y := genRange_lo_le 2 (GRID_SIZE - 2) r1
  have hyhi : y < GRID_SIZE - 2 := genRange_lt 2 (GRID_SIZE - 2) r1 (by omega)
  have hwf1 : gridWF (gridSet s.1 y x .Column) := gridWF_set hwf _ _ _
  obtain ⟨w1, w2, w3⟩ := strip_walk_spec STRIP_LENGTH (gridSet s.1 y x .Column)
    (Int.ofNat x) (Int.ofNat y) r2 hwf1
  refine ⟨w1, ?_, ?_⟩
  · intro y' x' hni
    rw [w2 y' x' hni]
    refine gridGet_set_ne s.1 _ ?_
    by_contra hcon
    push_neg at hcon
    refine hni ?_
    rw [← hcon.1, ← hcon.2]
    exact ⟨hylo, hyhi, hxlo, hxhi⟩
  · intro y' x'
    rcases w3 y' x' with h | h
    · rw [h]
      by_cases hc : y = y' ∧ x = x'
      · right
        rw [← hc.1, ← hc.2]
        exact gridGet_set_eq hwf _ (by omega) (by omega)
      · left
        exact gridGet_set_ne s.1 _ (by tauto)
    · exact Or.inr h

theorem wallsPhase_foldl_spec (l : List Nat) (s : Grid × Rng) (hwf : gridWF s.1) :
    gridWF ((l.foldl (fun gr _ => wallsStripStep gr) s).1) ∧
    OffInterior s.1 ((l.foldl (fun gr _ => wallsStripStep gr) s).1) ∧
    OnlyColumn s.1 ((l.foldl (fun gr _ => wallsStripStep gr) s).1) := by
  induction l generalizing s with
  | nil => exact ⟨hwf, OffInterior.offRefl _, OnlyColumn.colRefl _⟩
  | cons a t ih =>
    simp only [List.foldl_cons]
    obtain ⟨h1, h2, h3⟩ := wallsStripStep_spec s hwf
    obtain ⟨i1, i2, i3⟩ := ih (wallsStripStep s) h1
    exact ⟨i1, h2.offTrans i2, h3.colTrans i3⟩

theorem wallsPhase_spec (g : Grid) (r : Rng) (hwf : gridWF g) :
    gridWF (wallsPhase g r).1 ∧ OffInterior g (wallsPhase g r).1 ∧
    OnlyColumn g (wallsPhase g r).1 :=
  wallsPhase_foldl_spec (List.range num_strips) (g, r) hwf

/-! ## Pocket-elimination phase: region lemmas -/

theorem interiorRange_mem {a : Nat} (h : a ∈ interiorRange) :
    2 ≤ a ∧ a < GRID_SIZE - 2 := by
  have hG : GRID_SIZE = 40 := rfl
  unfold interiorRange at h
  rw [List.mem_range'_1] at h
  omega

theorem pocketStep_spec {g : Grid} (hwf : gridWF g) {y x : Nat}
    (hy : 2 ≤ y ∧ y < GRID_SIZE - 2) (hx : 2 ≤ x ∧ x < GRID_SIZE - 2) :
    gridWF (pocketStep g y x) ∧ OffInterior g (pocketStep g y x) ∧
    OnlyColumn g (pocketStep g y x) := by
  have hG : GRID_SIZE = 40 := rfl
  unfold pocketStep
  split
  · refine ⟨gridWF_set hwf _ _ _, ?_, ?_⟩
    · intro y' x' hni
      refine gridGet_set_ne g _ ?_
      by_contra hcon
      push_neg at hcon
      exact hni (hcon.1 ▸ hcon.2 ▸ ⟨hy.1, hy.2, hx.1, hx.2⟩)
    · intro y' x'
      by_cases hc : y = y' ∧ x = x'
      · right
        rw [← hc.1, ← hc.2]
        exact gridGet_set_eq hwf _ (by omega) (by omega)
      · left
        exact gridGet_set_ne g _ (by tauto)
  · exact ⟨hwf, OffInterior.offRefl g, OnlyColumn.colRefl g⟩

theorem pocketRow_spec (l : List Nat) (hl : ∀ a ∈ l, 2 ≤ a ∧ a < GRID_SIZE - 2)
    {y : Nat} (hy : 2 ≤ y ∧ y < GRID_SIZE - 2) (g : Grid) (hwf : gridWF g) :
    gridWF (l.foldl (fun g x => pocketStep g y x) g) ∧
    OffInterior g (l.foldl (fun g x => pocketStep g y x) g) ∧
    OnlyColumn g (l.foldl (fun g x => pocketStep g y x) g) := by
  induction l generalizing g with
  | nil => exact ⟨hwf, OffInterior.offRefl _, OnlyColumn.colRefl _⟩
  | cons a t ih =>
    simp only [List.foldl_cons]
    obtain ⟨h1, h2, h3⟩ := pocketStep_spec hwf hy (hl a (List.mem_cons_self _ _))
    obtain ⟨i1, i2, i3⟩ := ih (fun b hb => hl b (List.mem_cons_of_mem _ hb)) _ h1
    exact ⟨i1, h2.offTrans i2, h3.colTrans i3⟩

theorem pocketAll_spec (ys : List Nat) (hys : ∀ a ∈ ys, 2 ≤ a ∧ a < GRID_SIZE - 2)
    (g : Grid) (hwf : gridWF g) :
    gridWF (ys.foldl (fun g y => interiorRange.foldl (fun g x => pocketStep g y x) g) g) ∧
    OffInterior g
      (ys.foldl (fun g y => interiorRange.foldl (fun g x => pocketStep g y x) g) g) ∧
    OnlyColumn g
      (ys.foldl (fun g y => interiorRange.foldl (fun g x => pocketStep g y x) g) g) := by
  induction ys generalizing g with
  | nil => exact ⟨hwf, OffInterior.offRefl _, OnlyColumn.colRefl _⟩
  | cons a t ih =>
    simp only [List.foldl_cons]
    obtain ⟨h1, h2, h3⟩ :=
      pocketRow_spec interiorRange (fun b hb => interiorRange_mem hb)
        (hys a (List.mem_cons_self _ _)) g hwf
    obtain ⟨i1, i2, i3⟩ := ih (fun b hb => hys b (List.mem_cons_of_mem _ hb)) _ h1
    exact ⟨i1, h2.offTrans i2, h3.colTrans i3⟩

theorem pocketPhase_spec (g : Grid) (hwf : gridWF g) :
    gridWF (pocketPhase g) ∧ OffInterior g (pocketPhase g) ∧
    OnlyColumn g (pocketPhase g) :=
  pocketAll_spec interiorRange (fun b hb => interiorRange_mem hb) g hwf

/-! ## Border and door phases -/

theorem foldl_setRow_get (l : List Nat) (hl : ∀ a ∈ l, a < GRID_SIZE) {g : Grid}
    (hwf : gridWF g) {yr : Nat} (hyr : yr < GRID_SIZE) (c : CellType) (y' x' : Nat) :
    gridGet (l.foldl (fun g x => gridSet g yr x c) g) y' x' =
      if y' = yr ∧ x' ∈ l then c else gridGet g y' x' := by
  induction l generalizing g with
  | nil => simp
  | cons a t ih =>
    simp only [List.foldl_cons]
    rw [ih (fun b hb => hl b (List.mem_cons_of_mem _ hb)) (gridWF_set hwf _ _ _)]
    by_cases h1 : y' = yr ∧ x' ∈ t
    · rw [if_pos h1, if_pos ⟨h1.1, List.mem_cons_of_mem _ h1.2⟩]
    · rw [if_neg h1]
      by_cases h2 : y' = yr ∧ x' = a
      · rw [h2.1, h2.2, gridGet_set_eq hwf _ hyr (hl a (List.mem_cons_self _ _)),
          if_pos ⟨rfl, List.mem_cons_self _ _⟩]
      · rw [gridGet_set_ne g _ (by tauto), if_neg (by
          simp only [List.mem_cons]
          tauto)]

theorem foldl_setCol_get (l : List Nat) (hl : ∀ a ∈ l, a < GRID_SIZE) {g : Grid}
    (hwf : gridWF g) {xc : Nat} (hxc : xc < GRID_SIZE) (c : CellType) (y' x' : Nat) :
    gridGet (l.foldl (fun g y => gridSet g y xc c) g) y' x' =
      if x' = xc ∧ y' ∈ l then c else gridGet g y' x' := by
  induction l generalizing g with
  | nil => simp
  | cons a t ih =>
    simp only [List.foldl_cons]
    rw [ih (fun b hb => hl b (List.mem_cons_of_mem _ hb)) (gridWF_set hwf _ _ _)]
    by_cases h1 : x' = xc ∧ y' ∈ t
    · rw [if_pos h1, if_pos ⟨h1.1, List.mem_cons_of_mem _ h1.2⟩]
    · rw [if_neg h1]
      by_cases h2 : x' = xc ∧ y' = a
      · rw [h2.1, h2.2, gridGet_set_eq hwf _ (hl a (List.mem_cons_self _ _)) hxc,
          if_pos ⟨rfl, List.mem_cons_self _ _⟩]
      · rw [gridGet_set_ne g _ (by tauto), if_neg (by
          simp only [List.mem_cons]
          tauto)]

theorem gridWF_foldl_set (l : List Nat) (f : Nat → Nat × Nat) (c : CellType)
    {g : Grid} (hwf : gridWF g) :
    gridWF (l.foldl (fun g a => gridSet g (f a).1 (f a).2 c) g) :=
  foldl_inv gridWF (fun s b _ h => gridWF_set h _ _ _) hwf

theorem borderPhase_wf {g : Grid} (hwf : gridWF g) : gridWF (borderPhase g) := by
  unfold borderPhase
  refine foldl_inv gridWF (fun s b _ h => gridWF_set h _ _ _) ?_
  refine foldl_inv gridWF (fun s b _ h => gridWF_set h _ _ _) ?_
  refine foldl_inv gridWF (fun s b _ h => gridWF_set h _ _ _) ?_
  exact foldl_inv gridWF (fun s b _ h => gridWF_set h _ _ _) hwf

theorem borderPhase_get {g : Grid} (hwf : gridWF g) {y x : Nat}
    (hy : y < GRID_SIZE) (hx : x < GRID_SIZE) :
    gridGet (borderPhase g) y x =
      if y = 0 ∨ y = GRID_SIZE - 1 ∨ x = 0 ∨ x = GRID_SIZE - 1 then .Column
      else gridGet g y x := by
  have hG : GRID_SIZE = 40 := rfl
  have hmem : ∀ a : Nat, a < GRID_SIZE → a ∈ List.range GRID_SIZE := by
    intro a ha
    rw [List.mem_range]
    exact ha
  have hrangelt : ∀ a ∈ List.range GRID_SIZE, a < GRID_SIZE := by
    intro a ha
    rw [List.mem_range] at ha
    exact ha
  unfold borderPhase
  have hwf1 : gridWF ((List.range GRID_SIZE).foldl (fun g x => gridSet g 0 x .Column) g) :=
    foldl_inv gridWF (fun s b _ h => gridWF_set h _ _ _) hwf
  have hwf2 : gridWF ((List.range GRID_SIZE).foldl
      (fun g x => gridSet g (GRID_SIZE - 1) x .Column)
      ((List.range GRID_SIZE).foldl (fun g x => gridSet g 0 x .Column) g)) :=
    foldl_inv gridWF (fun s b _ h => gridWF_set h _ _ _) hwf1
  have hwf3 : gridWF ((List.range GRID_SIZE).foldl (fun g y => gridSet g y 0 .Column)
      ((List.range GRID_SIZE).foldl (fun g x => gridSet g (GRID_SIZE - 1) x .Column)
        ((List.range GRID_SIZE).foldl (fun g x => gridSet g 0 x .Column) g))) :=
    foldl_inv gridWF (fun s b _ h => gridWF_set h _ _ _) hwf2
  rw [foldl_setCol_get (List.range GRID_SIZE) hrangelt hwf3 (by omega) .Column y x,
    foldl_setCol_get (List.range GRID_SIZE) hrangelt hwf2 (by omega) .Column y x,
    foldl_setRow_get (List.range GRID_SIZE) hrangelt hwf1 (by omega) .Column y x,
    foldl_setRow_get (List.range GRID_SIZE) hrangelt hwf (by omega) .Column y x]
  by_cases c1 : x = GRID_SIZE - 1
  · simp [c1, hmem y hy]
  · by_cases c2 : x = 0
    · simp [c1, c2, hmem y hy]
    · by_cases c3 : y = GRID_SIZE - 1
      · simp [c1, c2, c3, hmem x hx]
      · by_cases c4 : y = 0
        · simp [c1, c2, c3, c4, hmem x hx]
        · simp [c1, c2, c3, c4]

theorem placeDoors_wf {g : Grid} (hwf : gridWF g) (tp : Nat) (ts : DoorState)
    (bp : Nat) (bs : DoorState) (lp : Nat) (ls : DoorState) (rp : Nat)
    (rs : DoorState) : gridWF (placeDoors g tp ts bp bs lp ls rp rs) :=
  gridWF_set (gridWF_set (gridWF_set (gridWF_set hwf _ _ _) _ _ _) _ _ _) _ _ _

theorem placeDoors_get_interior {g : Grid} {y x : Nat}
    (hy1 : 1 ≤ y) (hy2 : y ≤ GRID_SIZE - 2) (hx1 : 1 ≤ x) (hx2 : x ≤ GRID_SIZE - 2)
    (tp : Nat) (ts : DoorState) (bp : Nat) (bs : DoorState) (lp : Nat)
    (ls : DoorState) (rp : Nat) (rs : DoorState) :
    gridGet (placeDoors g tp ts bp bs lp ls rp rs) y x = gridGet g y x := by
  have hG : GRID_SIZE = 40 := rfl
  unfold placeDoors
  rw [gridGet_set_ne _ _ (Or.inr (by omega)), gridGet_set_ne _ _ (Or.inr (by omega)),
    gridGet_set_ne _ _ (Or.inl (by omega)), gridGet_set_ne _ _ (Or.inl (by omega))]

theorem placeDoors_border {g : Grid} (hwf : gridWF g)
    {tp bp lp rp : Nat}
    (htp : 2 ≤ tp ∧ tp < GRID_SIZE - 2) (hbp : 2 ≤ bp ∧ bp < GRID_SIZE - 2)
    (hlp : 2 ≤ lp ∧ lp < GRID_SIZE - 2) (hrp : 2 ≤ rp ∧ rp < GRID_SIZE - 2)
    (ts bs ls rs : DoorState) :
    (∀ x, x < GRID_SIZE →
      gridGet (placeDoors g tp ts bp bs lp ls rp rs) 0 x =
        if x = tp then .Door ⟨.Top, ts, tp⟩ else gridGet g 0 x) ∧
    (∀ x, x < GRID_SIZE →
      gridGet (placeDoors g tp ts bp bs lp ls rp rs) (GRID_SIZE - 1) x =
        if x = bp then .Door ⟨.Bottom, bs, bp⟩ else gridGet g (GRID_SIZE - 1) x) ∧
    (∀ y, y < GRID_SIZE →
      gridGet (placeDoors g tp ts bp bs lp ls rp rs) y 0 =
        if y = lp then .Door ⟨.Left, ls, lp⟩ else gridGet g y 0) ∧
    (∀ y, y < GRID_SIZE →
      gridGet (placeDoors g tp ts bp bs lp ls rp rs) y (GRID_SIZE - 1) =
        if y = rp then .Door ⟨.Right, rs, rp⟩ else gridGet g y (GRID_SIZE - 1)) := by
  have hG : GRID_SIZE = 40 := rfl
  have hwf1 : gridWF (gridSet g 0 tp (.Door ⟨.Top, ts, tp⟩)) := gridWF_set hwf _ _ _
  have hwf2 : gridWF (gridSet (gridSet g 0 tp (.Door ⟨.Top, ts, tp⟩)) (GRID_SIZE - 1) bp
      (.Door ⟨.Bottom, bs, bp⟩)) := gridWF_set hwf1 _ _ _
  have hwf3 : gridWF (gridSet (gridSet (gridSet g 0 tp (.Door ⟨.Top, ts, tp⟩))
      (GRID_SIZE - 1) bp (.Door ⟨.Bottom, bs, bp⟩)) lp 0 (.Door ⟨.Left, ls, lp⟩)) :=
    gridWF_set hwf2 _ _ _
  unfold placeDoors
  refine ⟨?_, ?_, ?_, ?_⟩
  · intro x hx
    rw [gridGet_set_ne _ _ (Or.inl (by omega)), gridGet_set_ne _ _ (Or.inl (by omega)),
      gridGet_set_ne _ _ (Or.inl (by omega))]
    by_cases hxx : x = tp
    · subst hxx
      rw [if_pos rfl]
      exact gridGet_set_eq hwf _ (by omega) (by omega)
    · rw [if_neg hxx, gridGet_set_ne _ _ (Or.inr (fun h => hxx h.symm))]
  · intro x hx
    rw [gridGet_set_ne _ _ (Or.inl (by omega)), gridGet_set_ne _ _ (Or.inl (by omega))]
    by_cases hxx : x = bp
    · subst hxx
      rw [if_pos rfl]
      exact gridGet_set_eq hwf1 _ (by omega) (by omega)
    · rw [if_neg hxx, gridGet_set_ne _ _ (Or.inr (fun h => hxx h.symm)),
        gridGet_set_ne _ _ (Or.inl (by omega))]
  · intro y hy
    rw [gridGet_set_ne _ _ (Or.inr (by omega))]
    by_cases hyy : y = lp
    · subst hyy
      rw [if_pos rfl]
      exact gridGet_set_eq hwf2 _ (by omega) (by omega)
    · rw [if_neg hyy, gridGet_set_ne _ _ (Or.inl (fun h => hyy h.symm)),
        gridGet_set_ne _ _ (Or.inr (by omega)), gridGet_set_ne _ _ (Or.inr (by omega))]
  · intro y hy
    by_cases hyy : y = rp
    · subst hyy
      rw [if_pos rfl]
      exact gridGet_set_eq hwf3 _ (by omega) (by omega)
    · rw [if_neg hyy, gridGet_set_ne _ _ (Or.inl (fun h => hyy h.symm)),
        gridGet_set_ne _ _ (Or.inr (by omega)), gridGet_set_ne _ _ (Or.inr (by omega)),
        gridGet_set_ne _ _ (Or.inr (by omega))]

/-! ## Placement phase -/

theorem find_empty_cell_succ_eq (g : Grid) (r : Rng) (fuel : Nat) :
    find_empty_cell g r (fuel + 1) =
      if gridGet g (draw1 (rng1 r)) (draw1 r) = .Empty then
        some (draw1 r, draw1 (rng1 r), rng1 (rng1 r))
      else find_empty_cell g (rng1 (rng1 r)) fuel := rfl

theorem find_empty_cell_spec (fuel : Nat) (g : Grid) (r : Rng) {x y : Nat} {r' : Rng}
    (h : find_empty_cell g r fuel = some (x, y, r')) :
    2 ≤ x ∧ x < GRID_SIZE - 2 ∧ 2 ≤ y ∧ y < GRID_SIZE - 2 ∧ gridGet g y x = .Empty := by
  have hG : GRID_SIZE = 40 := rfl
  induction fuel generalizing r with
  | zero => simp [find_empty_cell] at h
  | succ n ih =>
    rw [find_empty_cell_succ_eq] at h
    split at h
    · next hcond =>
      obtain ⟨hx, hy, hr⟩ : draw1 r = x ∧ draw1 (rng1 r) = y ∧ rng1 (rng1 r) = r' := by
        simpa using h
      subst hx
      subst hy
      refine ⟨genRange_lo_le _ _ _, genRange_lt _ _ _ (by omega),
        genRange_lo_le _ _ _, genRange_lt _ _ _ (by omega), hcond⟩
    · exact ih _ h

theorem placePhase_succ_eq (c : CellType) (n : Nat) (g : Grid) (r : Rng) (fuel : Nat) :
    placePhase c (n + 1) g r fuel =
      match find_empty_cell g r fuel with
      | none => none
      | some (x, y, r') => placePhase c n (gridSet g y x c) r' fuel := rfl

theorem placePhase_spec (c : CellType) (hc : c ≠ .Empty) (n : Nat) :
    ∀ (g : Grid) (r : Rng) (fuel : Nat) {g' : Grid} {r' : Rng},
    gridWF g → placePhase c n g r fuel = some (g', r') →
    gridWF g' ∧ OffInterior g g' ∧ OnlyOnEmpty c g g' := by
  have hG : GRID_SIZE = 40 := rfl
  induction n with
  | zero =>
    intro g r fuel g' r' hwf h
    obtain ⟨hg, hr⟩ : g = g' ∧ r = r' := by simpa [placePhase] using h
    subst hg
    exact ⟨hwf, OffInterior.offRefl g, fun y x hne => absurd rfl hne⟩
  | succ n ih =>
    intro g r fuel g' r' hwf h
    rw [placePhase_succ_eq] at h
    rcases hF : find_empty_cell g r fuel with _ | ⟨x, y, r2⟩
    · rw [hF] at h
      simp at h
    · rw [hF] at h
      obtain ⟨hx1, hx2, hy1, hy2, hemp⟩ := find_empty_cell_spec fuel g r hF
      have hwf2 : gridWF (gridSet g y x c) := gridWF_set hwf y x c
      obtain ⟨w1, w2, w3⟩ := ih _ _ _ hwf2 h
      have hmid : gridGet (gridSet g y x c) y x = c :=
        gridGet_set_eq hwf _ (by omega) (by omega)
      refine ⟨w1, ?_, ?_⟩
      · intro y' x' hni
        rw [w2 y' x' hni]
        refine gridGet_set_ne g _ ?_
        by_contra hcon
        push_neg at hcon
        exact hni (hcon.1 ▸ hcon.2 ▸ ⟨hy1, hy2, hx1, hx2⟩)
      · intro y' x' hne
        by_cases hcell : y = y' ∧ x = x'
        · obtain ⟨rfl, rfl⟩ := hcell
          refine ⟨hemp, ?_⟩
          by_cases hch : gridGet g' y x = gridGet (gridSet g y x c) y x
          · rw [hch, hmid]
          · exact (w3 y x hch).2
        · have hmid' : gridGet (gridSet g y x c) y' x' = gridGet g y' x' :=
            gridGet_set_ne g _ (by tauto)
          have hch : gridGet g' y' x' ≠ gridGet (gridSet g y x c) y' x' := by
            rw [hmid']
            exact hne
          obtain ⟨hm, hf⟩ := w3 y' x' hch
          rw [hmid'] at hm
          exact ⟨hm, hf⟩

/-! ## Cell counting -/

theorem countP_set_aux (p : CellType → Bool) (c : CellType) :
    ∀ (row : List CellType) (x : Nat), x < row.length →
    (row.set x c).countP p + (if p (row.getD x .Empty) then 1 else 0) =
      row.countP p + (if p c then 1 else 0) := by
  intro row
  induction row with
  | nil => intro x hx; simp at hx
  | cons a t ih =>
    intro x hx
    cases x with
    | zero =>
      simp only [List.set_cons_zero, List.countP_cons, List.getD_cons_zero]
      omega
    | succ n =>
      simp only [List.set_cons_succ, List.countP_cons, List.getD_cons_succ]
      have := ih n (by simpa using hx)
      omega

theorem countCells_cons (row : List CellType) (rest : List (List CellType))
    (p : CellType → Bool) :
    countCells (row :: rest) p = row.countP p + countCells rest p := rfl

theorem gridSet_cons_zero (row : List CellType) (rest : List (List CellType))
    (x : Nat) (c : CellType) :
    gridSet (row :: rest) 0 x c = (row.set x c) :: rest := rfl

theorem gridSet_cons_succ (row : List CellType) (rest : List (List CellType))
    (y x : Nat) (c : CellType) :
    gridSet (row :: rest) (y + 1) x c = row :: gridSet rest y x c := rfl

theorem gridGet_cons_zero (row : List CellType) (rest : List (List CellType))
    (x : Nat) : gridGet (row :: rest) 0 x = row.getD x .Empty := rfl

theorem gridGet_cons_succ (row : List CellType) (rest : List (List CellType))
    (y x : Nat) : gridGet (row :: rest) (y + 1) x = gridGet rest y x := rfl

theorem countCells_set (p : CellType → Bool) (c : CellType) :
    ∀ (g : Grid) (y x : Nat), y < g.length → x < (g.getD y []).length →
    countCells (gridSet g y x c) p + (if p (gridGet g y x) then 1 else 0) =
      countCells g p + (if p c then 1 else 0) := by
  intro g
  induction g with
  | nil => intro y x hy hx; simp at hy
  | cons row rest ih =>
    intro y x hy hx
    cases y with
    | zero =>
      have hx' : x < row.length := by simpa using hx
      rw [gridSet_cons_zero, countCells_cons, countCells_cons, gridGet_cons_zero]
      have := countP_set_aux p c row x hx'
      omega
    | succ n =>
      have hy' : n < rest.length := by simpa using hy
      have hx' : x < (rest.getD n []).length := by
        simpa using hx
      rw [gridSet_cons_succ, countCells_cons, countCells_cons, gridGet_cons_succ]
      have := ih n x hy' hx'
      omega

theorem placePhase_count (c : CellType) (p : CellType → Bool) (hpe : p .Empty = false)
    (n : Nat) :
    ∀ (g : Grid) (r : Rng) (fuel : Nat) {g' : Grid} {r' : Rng},
    gridWF g → placePhase c n g r fuel = some (g', r') →
    countCells g' p = countCells g p + (if p c then n else 0) := by
  have hG : GRID_SIZE = 40 := rfl
  induction n with
  | zero =>
    intro g r fuel g' r' hwf h
    obtain ⟨hg, hr⟩ : g = g' ∧ r = r' := by simpa [placePhase] using h
    subst hg
    split <;> omega
  | succ n ih =>
    intro g r fuel g' r' hwf h
    rw [placePhase_succ_eq] at h
    rcases hF : find_empty_cell g r fuel with _ | ⟨x, y, r2⟩
    · rw [hF] at h
      simp at h
    · rw [hF] at h
      obtain ⟨hx1, hx2, hy1, hy2, hemp⟩ := find_empty_cell_spec fuel g r hF
      have hylen : y < g.length := by
        rw [hwf.1]
        omega
      have hxlen : x < (g.getD y []).length := by
        rw [listGetD_lt hylen, hwf.2 _ (List.getElem_mem hylen)]
        omega
      have hset := countCells_set p c g y x hylen hxlen
      rw [hemp, hpe] at hset
      have hset' : countCells (gridSet g y x c) p =
          countCells g p + (if p c = true then 1 else 0) := by
        simpa using hset
      have hrec := ih _ _ _ (gridWF_set hwf y x c) h
      rw [hrec, hset']
      by_cases hpc : p c = true
      · rw [if_pos hpc, if_pos hpc, if_pos hpc]
        omega
      · rw [if_neg hpc, if_neg hpc, if_neg hpc]

/-! ## Absence of a cell kind -/

theorem noCells_set {g : Grid} {p : CellType → Bool} (h : noCells g p)
    {c : CellType} (hc : p c = false) (y x : Nat) : noCells (gridSet g y x c) p := by
  intro y' x' hy' hx'
  by_cases hyy : y = y'
  · subst hyy
    by_cases hxx : x = x'
    · subst hxx
      unfold gridGet gridSet
      by_cases hyl : y < g.length
      · rw [listGetD_set_eq hyl]
        by_cases hxl : x < (g.getD y []).length
        · rw [listGetD_set_eq hxl]
          exact hc
        · rw [List.set_eq_of_length_le (Nat.le_of_not_lt hxl)]
          exact h y x hy' hx'
      · rw [List.set_eq_of_length_le (Nat.le_of_not_lt hyl)]
        exact h y x hy' hx'
    · rw [gridGet_set_ne g _ (Or.inr hxx)]
      exact h y x' hy' hx'
  · rw [gridGet_set_ne g _ (Or.inl hyy)]
    exact h y' x' hy' hx'

theorem noCells_of_onlyColumn {g g' : Grid} {p : CellType → Bool}
    (h : OnlyColumn g g') (hcol : p .Column = false) (hn : noCells g p) :
    noCells g' p := by
  intro y x hy hx
  rcases h y x with heq | heq
  · rw [heq]
    exact hn y x hy hx
  · rw [heq]
    exact hcol

theorem countCells_zero_aux (p : CellType → Bool) :
    ∀ g : Grid, (∀ row ∈ (g : List (List CellType)), row.countP p = 0) →
    countCells g p = 0 := by
  intro g
  induction g with
  | nil => intro _; rfl
  | cons row rest ih =>
    intro h
    rw [countCells_cons, h row (List.mem_cons_self _ _),
      ih (fun r hr => h r (List.mem_cons_of_mem _ hr))]

theorem countCells_eq_zero {g : Grid} {p : CellType → Bool} (hwf : gridWF g)
    (h : noCells g p) : countCells g p = 0 := by
  refine countCells_zero_aux p g ?_
  intro row hrow
  obtain ⟨y, hylen, hyval⟩ := List.mem_iff_getElem.mp hrow
  rw [List.countP_eq_zero]
  intro a ha
  obtain ⟨x, hxlen, hxval⟩ := List.mem_iff_getElem.mp ha
  have hget : gridGet g y x = a := by
    unfold gridGet
    rw [listGetD_lt hylen, hyval, listGetD_lt hxlen, hxval]
  have hy40 : y < GRID_SIZE := by
    rw [← hwf.1]
    exact hylen
  have hx40 : x < GRID_SIZE := by
    rw [← hwf.2 row hrow]
    exact hxlen
  have := h y x hy40 hx40
  rw [hget] at this
  simp [this]

/-! ## Door phase characterization -/

theorem doorsPhase_none_eq (g : Grid) (r : Rng) :
    doorsPhase none g r =
      (placeDoors (gridSet g 1 (draw1 r) .Player) (draw1 r) .Locked
        (draw1 (rng1 r)) .Locked (draw1 (rng1 (rng1 r))) .Locked
        (draw1 (rng1 (rng1 (rng1 r)))) .Locked,
       rng1 (rng1 (rng1 (rng1 r)))) := rfl

theorem doorsPhase_top_eq (ds : DoorState) (dp : Nat) (g : Grid) (r : Rng) :
    doorsPhase (some ⟨.Top, ds, dp⟩) g r =
      (placeDoors g (draw1 r) .Locked dp .TemporaryOpen
        (draw1 (rng1 (rng1 r))) .Locked (draw1 (rng1 (rng1 (rng1 r)))) .Locked,
       rng1 (rng1 (rng1 (rng1 r)))) := rfl

theorem doorsPhase_bottom_eq (ds : DoorState) (dp : Nat) (g : Grid) (r : Rng) :
    doorsPhase (some ⟨.Bottom, ds, dp⟩) g r =
      (placeDoors g dp .TemporaryOpen (draw1 (rng1 r)) .Locked
        (draw1 (rng1 (rng1 r))) .Locked (draw1 (rng1 (rng1 (rng1 r)))) .Locked,
       rng1 (rng1 (rng1 (rng1 r)))) := rfl

theorem doorsPhase_left_eq (ds : DoorState) (dp : Nat) (g : Grid) (r : Rng) :
    doorsPhase (some ⟨.Left, ds, dp⟩) g r =
      (placeDoors g (draw1 r) .Locked (draw1 (rng1 r)) .Locked
        (draw1 (rng1 (rng1 r))) .Locked dp .TemporaryOpen,
       rng1 (rng1 (rng1 (rng1 r)))) := rfl

theorem doorsPhase_right_eq (ds : DoorState) (dp : Nat) (g : Grid) (r : Rng) :
    doorsPhase (some ⟨.Right, ds, dp⟩) g r =
      (placeDoors g (draw1 r) .Locked (draw1 (rng1 r)) .Locked
        dp .TemporaryOpen (draw1 (rng1 (rng1 (rng1 r)))) .Locked,
       rng1 (rng1 (rng1 (rng1 r)))) := rfl

theorem draw1_bounds (r : Rng) : 2 ≤ draw1 r ∧ draw1 r < GRID_SIZE - 2 :=
  ⟨genRange_lo_le _ _ _, genRange_lt _ _ _ (by norm_num [GRID_SIZE])⟩

theorem doorsPhase_wf (prev : Option Door) {g : Grid} (hwf : gridWF g) (r : Rng) :
    gridWF (doorsPhase prev g r).1 := by
  cases prev with
  | none =>
    rw [doorsPhase_none_eq]
    exact placeDoors_wf (gridWF_set hwf _ _ _) _ _ _ _ _ _ _ _
  | some d =>
    obtain ⟨dt, ds, dp⟩ := d
    cases dt
    · rw [doorsPhase_top_eq]
      exact placeDoors_wf hwf _ _ _ _ _ _ _ _
    · rw [doorsPhase_bottom_eq]
      exact placeDoors_wf hwf _ _ _ _ _ _ _ _
    · rw [doorsPhase_left_eq]
      exact placeDoors_wf hwf _ _ _ _ _ _ _ _
    · rw [doorsPhase_right_eq]
      exact placeDoors_wf hwf _ _ _ _ _ _ _ _

theorem doorsPhase_interior_none {g : Grid} (hwf : gridWF g) (r : Rng)
    {y x : Nat} (hy1 : 1 ≤ y) (hy2 : y ≤ GRID_SIZE - 2) (hx1 : 1 ≤ x)
    (hx2 : x ≤ GRID_SIZE - 2) :
    gridGet (doorsPhase none g r).1 y x =
      if y = 1 ∧ x = draw1 r then .Player else gridGet g y x := by
  have hG : GRID_SIZE = 40 := rfl
  rw [doorsPhase_none_eq]
  simp only
  rw [placeDoors_get_interior hy1 hy2 hx1 hx2]
  by_cases hc : y = 1 ∧ x = draw1 r
  · rw [if_pos hc, hc.1, hc.2]
    exact gridGet_set_eq hwf _ (by omega) (by
      have := draw1_bounds r
      omega)
  · rw [if_neg hc]
    refine gridGet_set_ne g _ ?_
    by_contra hcon
    push_neg at hcon
    exact hc ⟨hcon.1.symm, hcon.2.symm⟩

theorem doorsPhase_interior_some (d : Door) {g : Grid} (r : Rng)
    {y x : Nat} (hy1 : 1 ≤ y) (hy2 : y ≤ GRID_SIZE - 2) (hx1 : 1 ≤ x)
    (hx2 : x ≤ GRID_SIZE - 2) :
    gridGet (doorsPhase (some d) g r).1 y x = gridGet g y x := by
  obtain ⟨dt, ds, dp⟩ := d
  cases dt
  · rw [doorsPhase_top_eq]
    exact placeDoors_get_interior hy1 hy2 hx1 hx2 _ _ _ _ _ _ _ _
  · rw [doorsPhase_bottom_eq]
    exact placeDoors_get_interior hy1 hy2 hx1 hx2 _ _ _ _ _ _ _ _
  · rw [doorsPhase_left_eq]
    exact placeDoors_get_interior hy1 hy2 hx1 hx2 _ _ _ _ _ _ _ _
  · rw [doorsPhase_right_eq]
    exact placeDoors_get_interior hy1 hy2 hx1 hx2 _ _ _ _ _ _ _ _

theorem noCells_placeDoors {g : Grid} {p : CellType → Bool} (h : noCells g p)
    (hdoor : ∀ d : Door, p (.Door d) = false) (tp : Nat) (ts : DoorState)
    (bp : Nat) (bs : DoorState) (lp : Nat) (ls : DoorState) (rp : Nat)
    (rs : DoorState) : noCells (placeDoors g tp ts bp bs lp ls rp rs) p :=
  noCells_set (noCells_set (noCells_set (noCells_set h (hdoor _) _ _)
    (hdoor _) _ _) (hdoor _) _ _) (hdoor _) _ _

theorem noCells_doorsPhase (prev : Option Door) {g : Grid} {p : CellType → Bool}
    (h : noCells g p) (hdoor : ∀ d : Door, p (.Door d) = false)
    (hplayer : p .Player = false) (r : Rng) :
    noCells (doorsPhase prev g r).1 p := by
  cases prev with
  | none =>
    rw [doorsPhase_none_eq]
    exact noCells_placeDoors (noCells_set h hplayer _ _) hdoor _ _ _ _ _ _ _ _
  | some d =>
    obtain ⟨dt, ds, dp⟩ := d
    cases dt
    · rw [doorsPhase_top_eq]
      exact noCells_placeDoors h hdoor _ _ _ _ _ _ _ _
    · rw [doorsPhase_bottom_eq]
      exact noCells_placeDoors h hdoor _ _ _ _ _ _ _ _
    · rw [doorsPhase_left_eq]
      exact noCells_placeDoors h hdoor _ _ _ _ _ _ _ _
    · rw [doorsPhase_right_eq]
      exact noCells_placeDoors h hdoor _ _ _ _ _ _ _ _

theorem noCells_borderPhase {g : Grid} {p : CellType → Bool} (h : noCells g p)
    (hcol : p .Column = false) : noCells (borderPhase g) p := by
  unfold borderPhase
  refine foldl_inv (fun g => noCells g p) (fun s b _ hs => noCells_set hs hcol _ _) ?_
  refine foldl_inv (fun g => noCells g p) (fun s b _ hs => noCells_set hs hcol _ _) ?_
  refine foldl_inv (fun g => noCells g p) (fun s b _ hs => noCells_set hs hcol _ _) ?_
  exact foldl_inv (fun g => noCells g p) (fun s b _ hs => noCells_set hs hcol _ _) h

theorem noCells_initGrid {p : CellType → Bool} (hemp : p .Empty = false) :
    noCells initGrid p := by
  intro y x _ _
  rw [gridGet_initGrid]
  exact hemp

/-! ## Pocket elimination: the single-pass postcondition -/

theorem OnlyColumn.columnPersists {g g' : Grid} (h : OnlyColumn g g') :
    ColumnPersists g g' := by
  intro y x hc
  rcases h y x with he | he
  · rw [he, hc]
  · exact he

theorem OnlyColumn.emptyWasEmpty {g g' : Grid} (h : OnlyColumn g g') :
    EmptyWasEmpty g g' := by
  intro y x he
  rcases h y x with h2 | h2
  · rw [← h2, he]
  · rw [he] at h2
    exact absurd h2 (by simp)

theorem pocketStep_get_ne (g : Grid) {y x y' x' : Nat} (h : y ≠ y' ∨ x ≠ x') :
    gridGet (pocketStep g y x) y' x' = gridGet g y' x' := by
  unfold pocketStep
  split
  · exact gridGet_set_ne g _ h
  · rfl

theorem pocketStep_not_trapped (g : Grid) (y x : Nat) (h : ¬ trappedEmpty g y x) :
    pocketStep g y x = g := by
  unfold pocketStep
  exact if_neg h

theorem pocketStep_of_trapped (g : Grid) (y x : Nat) (h : trappedEmpty g y x) :
    pocketStep g y x = gridSet g y x .Column := by
  unfold pocketStep
  exact if_pos h

theorem pocketStep_trapped {g : Grid} (hwf : gridWF g) {y x : Nat}
    (hy : y < GRID_SIZE) (hx : x < GRID_SIZE) (h : trappedEmpty g y x) :
    gridGet (pocketStep g y x) y x = .Column := by
  rw [pocketStep_of_trapped g y x h]
  exact gridGet_set_eq hwf _ hy hx

theorem pocketPairs_bounds {q : Nat × Nat} (h : q ∈ pocketPairs) :
    2 ≤ q.1 ∧ q.1 < GRID_SIZE - 2 ∧ 2 ≤ q.2 ∧ q.2 < GRID_SIZE - 2 := by
  unfold pocketPairs at h
  rw [List.mem_bind] at h
  obtain ⟨y, hy, hmem⟩ := h
  rw [List.mem_map] at hmem
  obtain ⟨x, hx, rfl⟩ := hmem
  obtain ⟨hy1, hy2⟩ := interiorRange_mem hy
  obtain ⟨hx1, hx2⟩ := interiorRange_mem hx
  exact ⟨hy1, hy2, hx1, hx2⟩

theorem pocketPairs_mem {y x : Nat} (hy : 2 ≤ y ∧ y < GRID_SIZE - 2)
    (hx : 2 ≤ x ∧ x < GRID_SIZE - 2) : (y, x) ∈ pocketPairs := by
  have hG : GRID_SIZE = 40 := rfl
  unfold pocketPairs
  rw [List.mem_bind]
  refine ⟨y, ?_, ?_⟩
  · unfold interiorRange
    rw [List.mem_range'_1]
    omega
  · rw [List.mem_map]
    refine ⟨x, ?_, rfl⟩
    unfold interiorRange
    rw [List.mem_range'_1]
    omega

theorem pocketPhase_eq_pairs (g : Grid) :
    pocketPhase g = pocketPairs.foldl (fun g q => pocketStep g q.1 q.2) g := by
  suffices h : ∀ (ys : List Nat) (g : Grid),
      ys.foldl (fun g y => interiorRange.foldl (fun g x => pocketStep g y x) g) g =
      (ys.bind (fun y => interiorRange.map (fun x => (y, x)))).foldl
        (fun g q => pocketStep g q.1 q.2) g by
    exact h interiorRange g
  intro ys
  induction ys with
  | nil => intro g; rfl
  | cons a t ih =>
    intro g
    have hb : (a :: t).bind (fun y => interiorRange.map (fun x => (y, x))) =
        interiorRange.map (fun x => (a, x)) ++
          t.bind (fun y => interiorRange.map (fun x => (y, x))) := rfl
    rw [List.foldl_cons, hb, List.foldl_append, List.foldl_map, ih]

theorem pocket_pairs_fold_spec (L : List (Nat × Nat))
    (hL : ∀ q ∈ L, 2 ≤ q.1 ∧ q.1 < GRID_SIZE - 2 ∧ 2 ≤ q.2 ∧ q.2 < GRID_SIZE - 2) :
    ∀ g : Grid, gridWF g →
    gridWF (L.foldl (fun g q => pocketStep g q.1 q.2) g) ∧
    OnlyColumn g (L.foldl (fun g q => pocketStep g q.1 q.2) g) := by
  induction L with
  | nil => intro g hwf; exact ⟨hwf, OnlyColumn.colRefl g⟩
  | cons a t ih =>
    intro g hwf
    simp only [List.foldl_cons]
    have hb := hL a (List.mem_cons_self _ _)
    obtain ⟨s1, _, s3⟩ := pocketStep_spec hwf ⟨hb.1, hb.2.1⟩ ⟨hb.2.2.1, hb.2.2.2⟩
    obtain ⟨i1, i2⟩ := ih (fun q hq => hL q (List.mem_cons_of_mem _ hq)) _ s1
    exact ⟨i1, s3.colTrans i2⟩

theorem pocket_fold_protect (L : List (Nat × Nat))
    (hL : ∀ q ∈ L, 2 ≤ q.1 ∧ q.1 < GRID_SIZE - 2 ∧ 2 ≤ q.2 ∧ q.2 < GRID_SIZE - 2) :
    ∀ g : Grid, gridWF g → ∀ py px qy qx : Nat, adjacent py px qy qx →
    gridGet (L.foldl (fun g q => pocketStep g q.1 q.2) g) py px = .Empty →
    gridGet g qy qx ≠ .Column →
    gridGet (L.foldl (fun g q => pocketStep g q.1 q.2) g) qy qx ≠ .Column := by
  induction L with
  | nil =>
    intro g _ py px qy qx _ _ hq
    exact hq
  | cons a t ih =>
    intro g hwf py px qy qx hadj hemp hq
    simp only [List.foldl_cons] at hemp ⊢
    have hb := hL a (List.mem_cons_self _ _)
    have htail := fun q hq => hL q (List.mem_cons_of_mem a hq)
    have hwf' : gridWF (pocketStep g a.1 a.2) :=
      (pocketStep_spec hwf ⟨hb.1, hb.2.1⟩ ⟨hb.2.2.1, hb.2.2.2⟩).1
    by_cases hcell : a.1 = qy ∧ a.2 = qx
    · by_cases htr : trappedEmpty g a.1 a.2
      · exfalso
        have hpcol : gridGet g py px = .Column := by
          obtain ⟨hE, hU, hD, hR, hLf⟩ := htr
          rw [hcell.1, hcell.2] at hU hD hR hLf
          rcases hadj with ⟨h1, h2⟩ | ⟨h1, h2⟩ | ⟨h1, h2⟩ | ⟨h1, h2⟩
          · rw [← h1, ← h2]
            exact hD
          · have hy' : qy - 1 = py := by omega
            rw [← h2, ← hy']
            exact hU
          · rw [← h1]
            have hx' : qx + 1 = px := h2
            rw [← hx']
            exact hR
          · have hx' : qx - 1 = px := by omega
            rw [← h1, ← hx']
            exact hLf
        have hstep : gridGet (pocketStep g a.1 a.2) py px = .Column :=
          ((pocketStep_spec hwf ⟨hb.1, hb.2.1⟩
            ⟨hb.2.2.1, hb.2.2.2⟩).2.2).columnPersists py px hpcol
        have hfold : gridGet (t.foldl (fun g q => pocketStep g q.1 q.2)
            (pocketStep g a.1 a.2)) py px = .Column :=
          ((pocket_pairs_fold_spec t htail _ hwf').2).columnPersists py px hstep
        rw [hemp] at hfold
        exact absurd hfold (by simp)
      · rw [pocketStep_not_trapped g a.1 a.2 htr] at hemp ⊢
        exact ih htail g hwf py px qy qx hadj hemp hq
    · have hq' : gridGet (pocketStep g a.1 a.2) qy qx ≠ .Column := by
        rw [pocketStep_get_ne g (by tauto)]
        exact hq
      exact ih htail _ hwf' py px qy qx hadj hemp hq'

theorem pocket_fold_visited (L : List (Nat × Nat))
    (hL : ∀ q ∈ L, 2 ≤ q.1 ∧ q.1 < GRID_SIZE - 2 ∧ 2 ≤ q.2 ∧ q.2 < GRID_SIZE - 2) :
    ∀ g : Grid, gridWF g → ∀ py px : Nat, (py, px) ∈ L →
    gridGet (L.foldl (fun g q => pocketStep g q.1 q.2) g) py px = .Empty →
    ∃ qy qx : Nat, adjacent py px qy qx ∧
      gridGet (L.foldl (fun g q => pocketStep g q.1 q.2) g) qy qx ≠ .Column := by
  have hG : GRID_SIZE = 40 := rfl
  induction L with
  | nil =>
    intro g _ py px hmem
    simp at hmem
  | cons a t ih =>
    obtain ⟨a1, a2⟩ := a
    intro g hwf py px hmem hemp
    simp only [List.foldl_cons] at hemp ⊢
    have hb := hL (a1, a2) (List.mem_cons_self _ _)
    have htail := fun q hq => hL q (List.mem_cons_of_mem (a1, a2) hq)
    have hwf' : gridWF (pocketStep g a1 a2) :=
      (pocketStep_spec hwf ⟨hb.1, hb.2.1⟩ ⟨hb.2.2.1, hb.2.2.2⟩).1
    rcases List.mem_cons.mp hmem with hhead | htl
    · obtain ⟨hpy, hpx⟩ : py = a1 ∧ px = a2 := by
        have := Prod.mk.injEq py px a1 a2 ▸ hhead
        simpa using this
      subst hpy
      subst hpx
      have hOC : OnlyColumn (pocketStep g py px)
          (t.foldl (fun g q => pocketStep g q.1 q.2) (pocketStep g py px)) :=
        (pocket_pairs_fold_spec t htail _ hwf').2
      have hg'emp : gridGet (pocketStep g py px) py px = .Empty :=
        hOC.emptyWasEmpty py px hemp
      have hnt : ¬ trappedEmpty g py px := by
        intro htr
        have hcol : gridGet (pocketStep g py px) py px = .Column :=
          pocketStep_trapped hwf (by omega) (by omega) htr
        rw [hg'emp] at hcol
        exact absurd hcol (by simp)
      have hgid : pocketStep g py px = g := pocketStep_not_trapped _ _ _ hnt
      rw [hgid] at hemp hg'emp ⊢
      by_cases hU : gridGet g (py - 1) px = .Column
      · by_cases hD : gridGet g (py + 1) px = .Column
        · by_cases hR : gridGet g py (px + 1) = .Column
          · by_cases hLf : gridGet g py (px - 1) = .Column
            · exact absurd ⟨hg'emp, hU, hD, hR, hLf⟩ hnt
            · refine ⟨py, px - 1, Or.inr (Or.inr (Or.inl ⟨rfl, by omega⟩)), ?_⟩
              exact pocket_fold_protect t htail g hwf py px py (px - 1)
                (Or.inr (Or.inr (Or.inl ⟨rfl, by omega⟩))) hemp hLf
          · refine ⟨py, px + 1, Or.inr (Or.inr (Or.inr ⟨rfl, rfl⟩)), ?_⟩
            exact pocket_fold_protect t htail g hwf py px py (px + 1)
              (Or.inr (Or.inr (Or.inr ⟨rfl, rfl⟩))) hemp hR
        · refine ⟨py + 1, px, Or.inr (Or.inl ⟨rfl, rfl⟩), ?_⟩
          exact pocket_fold_protect t htail g hwf py px (py + 1) px
            (Or.inr (Or.inl ⟨rfl, rfl⟩)) hemp hD
      · refine ⟨py - 1, px, Or.inl ⟨by omega, rfl⟩, ?_⟩
        exact pocket_fold_protect t htail g hwf py px (py - 1) px
          (Or.inl ⟨by omega, rfl⟩) hemp hU
    · exact ih htail _ hwf' py px htl hemp

theorem pocketPhase_no_trapped_interior {g : Grid} (hwf : gridWF g) {py px : Nat}
    (hpy : 2 ≤ py ∧ py < GRID_SIZE - 2) (hpx : 2 ≤ px ∧ px < GRID_SIZE - 2)
    (hemp : gridGet (pocketPhase g) py px = .Empty) :
    ∃ qy qx : Nat, adjacent py px qy qx ∧ gridGet (pocketPhase g) qy qx ≠ .Column := by
  rw [pocketPhase_eq_pairs] at hemp ⊢
  exact pocket_fold_visited pocketPairs (fun q hq => pocketPairs_bounds hq) g hwf
    py px (pocketPairs_mem hpy hpx) hemp

/-! ## Pipeline composition -/

theorem prePlacement_eq (prev : Option Door) (r : Rng) :
    prePlacement prev r =
      (pocketPhase (wallsPhase (doorsPhase prev (borderPhase initGrid) r).1
        (doorsPhase prev (borderPhase initGrid) r).2).1,
       (wallsPhase (doorsPhase prev (borderPhase initGrid) r).1
        (doorsPhase prev (borderPhase initGrid) r).2).2) := rfl

theorem generate_level_eq (prev : Option Door) (r : Rng) (fuel : Nat) :
    generate_level prev r fuel =
      match placePhase .Weapon LEVEL_WEAPON_SPAWNS (prePlacement prev r).1
          (prePlacement prev r).2 fuel with
      | none => none
      | some (g3, r3) =>
        match placePhase .Enemy LEVEL_ENEMIES g3 r3 fuel with
        | none => none
        | some (g4, _) => some g4 := rfl

attribute [irreducible] borderPhase doorsPhase strip_walk wallsStripStep wallsPhase
  pocketStep pocketPhase pocketPairs interiorRange find_empty_cell placePhase
  prePlacement generate_level

theorem doorsGrid_wf (prev : Option Door) (r : Rng) :
    gridWF (doorsPhase prev (borderPhase initGrid) r).1 :=
  doorsPhase_wf prev (borderPhase_wf gridWF_initGrid) r

theorem prePlacement_fst (prev : Option Door) (r : Rng) :
    (prePlacement prev r).1 =
      pocketPhase (wallsPhase (doorsPhase prev (borderPhase initGrid) r).1
        (doorsPhase prev (borderPhase initGrid) r).2).1 :=
  congrArg Prod.fst (prePlacement_eq prev r)

theorem prePlacement_snd (prev : Option Door) (r : Rng) :
    (prePlacement prev r).2 =
      (wallsPhase (doorsPhase prev (borderPhase initGrid) r).1
        (doorsPhase prev (borderPhase initGrid) r).2).2 := by
  rw [prePlacement_eq]

theorem prePlacement_wf (prev : Option Door) (r : Rng) :
    gridWF (prePlacement prev r).1 := by
  rw [prePlacement_fst]
  exact (pocketPhase_spec _ (wallsPhase_spec _ _ (doorsGrid_wf prev r)).1).1

theorem prePlacement_off (prev : Option Door) (r : Rng) :
    OffInterior (doorsPhase prev (borderPhase initGrid) r).1 (prePlacement prev r).1 := by
  rw [prePlacement_fst]
  have hwfD := doorsGrid_wf prev r
  have hw := wallsPhase_spec _ (doorsPhase prev (borderPhase initGrid) r).2 hwfD
  exact hw.2.1.offTrans (pocketPhase_spec _ hw.1).2.1

theorem generate_level_some (prev : Option Door) (r : Rng) (fuel : Nat) {g : Grid}
    (h : generate_level prev r fuel = some g) :
    gridWF g ∧ OffInterior (prePlacement prev r).1 g ∧
    (∀ y x, gridGet g y x ≠ gridGet (prePlacement prev r).1 y x →
      gridGet (prePlacement prev r).1 y x = .Empty ∧
      (gridGet g y x = .Weapon ∨ gridGet g y x = .Enemy)) ∧
    countCells g CellType.isWeapon =
      countCells (prePlacement prev r).1 CellType.isWeapon + LEVEL_WEAPON_SPAWNS ∧
    countCells g CellType.isEnemy =
      countCells (prePlacement prev r).1 CellType.isEnemy + LEVEL_ENEMIES := by
  rw [generate_level_eq] at h
  rcases hW : placePhase .Weapon LEVEL_WEAPON_SPAWNS (prePlacement prev r).1
      (prePlacement prev r).2 fuel with _ | ⟨g3, r3⟩
  · rw [hW] at h
    replace h : (none : Option Grid) = some g := h
    simp at h
  · rw [hW] at h
    replace h : (match placePhase .Enemy LEVEL_ENEMIES g3 r3 fuel with
      | none => none
      | some (g4, _) => some g4) = some g := h
    rcases hE : placePhase .Enemy LEVEL_ENEMIES g3 r3 fuel with _ | ⟨g4, r4⟩
    · rw [hE] at h
      replace h : (none : Option Grid) = some g := h
      simp at h
    · rw [hE] at h
      replace h : some g4 = some g := h
      obtain rfl : g = g4 := by simpa using h.symm
      have hwfP := prePlacement_wf prev r
      obtain ⟨w1, w2, w3⟩ := placePhase_spec .Weapon (by simp) LEVEL_WEAPON_SPAWNS
        _ _ _ hwfP hW
      obtain ⟨e1, e2, e3⟩ := placePhase_spec .Enemy (by simp) LEVEL_ENEMIES
        _ _ _ w1 hE
      refine ⟨e1, w2.offTrans e2, ?_, ?_, ?_⟩
      · intro y x hne
        by_cases hmid : gridGet g3 y x = gridGet (prePlacement prev r).1 y x
        · rw [← hmid] at hne ⊢
          obtain ⟨hm, hf⟩ := e3 y x hne
          exact ⟨hm, Or.inr hf⟩
        · obtain ⟨hm, hf⟩ := w3 y x hmid
          by_cases hfin : gridGet g y x = gridGet g3 y x
          · rw [hfin, hf]
            exact ⟨hm, Or.inl rfl⟩
          · obtain ⟨hm2, _⟩ := e3 y x hfin
            rw [hf] at hm2
            exact absurd hm2 (by simp)
      · have c1 := placePhase_count .Weapon CellType.isWeapon (by simp [CellType.isWeapon])
          LEVEL_WEAPON_SPAWNS _ _ _ hwfP hW
        have c2 := placePhase_count .Enemy CellType.isWeapon (by simp [CellType.isWeapon])
          LEVEL_ENEMIES _ _ _ w1 hE
        rw [c2, c1]
        simp [CellType.isWeapon]
      · have c1 := placePhase_count .Weapon CellType.isEnemy (by simp [CellType.isEnemy])
          LEVEL_WEAPON_SPAWNS _ _ _ hwfP hW
        have c2 := placePhase_count .Enemy CellType.isEnemy (by simp [CellType.isEnemy])
          LEVEL_ENEMIES _ _ _ w1 hE
        rw [c2, c1]
        simp [CellType.isEnemy]

theorem prePlacement_noCells (prev : Option Door) (r : Rng) {p : CellType → Bool}
    (hemp : p .Empty = false) (hcol : p .Column = false)
    (hdoor : ∀ d : Door, p (.Door d) = false) (hplayer : p .Player = false) :
    noCells (prePlacement prev r).1 p := by
  rw [prePlacement_fst]
  have h2 := noCells_doorsPhase prev
    (noCells_borderPhase (noCells_initGrid hemp) hcol) hdoor hplayer r
  have hwfD := doorsGrid_wf prev r
  have hw := wallsPhase_spec _ (doorsPhase prev (borderPhase initGrid) r).2 hwfD
  exact noCells_of_onlyColumn (pocketPhase_spec _ hw.1).2.2 hcol
    (noCells_of_onlyColumn hw.2.2 hcol h2)

/-! ## Border carrying -/

theorem borderInit_get {y x : Nat} (hy : y < GRID_SIZE) (hx : x < GRID_SIZE) :
    gridGet (borderPhase initGrid) y x =
      if y = 0 ∨ y = GRID_SIZE - 1 ∨ x = 0 ∨ x = GRID_SIZE - 1 then .Column
      else .Empty := by
  rw [borderPhase_get gridWF_initGrid hy hx, gridGet_initGrid]

theorem borderInit_column {y x : Nat} (hy : y < GRID_SIZE) (hx : x < GRID_SIZE)
    (hb : y = 0 ∨ y = GRID_SIZE - 1 ∨ x = 0 ∨ x = GRID_SIZE - 1) :
    gridGet (borderPhase initGrid) y x = .Column := by
  rw [borderInit_get hy hx, if_pos hb]

theorem border_carry {gD gF : Grid} (hoff : OffInterior gD gF) {y x : Nat}
    (hb : y = 0 ∨ y = GRID_SIZE - 1 ∨ x = 0 ∨ x = GRID_SIZE - 1) :
    gridGet gF y x = gridGet gD y x := by
  have hG : GRID_SIZE = 40 := rfl
  refine hoff y x ?_
  unfold Interior
  omega

theorem borderOk_of_sides {gD gF : Grid} (hoff : OffInterior gD gF)
    {tp bp lp rp : Nat}
    (htp : 2 ≤ tp ∧ tp < GRID_SIZE - 2) (hbp : 2 ≤ bp ∧ bp < GRID_SIZE - 2)
    (hlp : 2 ≤ lp ∧ lp < GRID_SIZE - 2) (hrp : 2 ≤ rp ∧ rp < GRID_SIZE - 2)
    (ts bs ls rs : DoorState)
    (h1 : ∀ x, x < GRID_SIZE →
      gridGet gD 0 x = if x = tp then .Door ⟨.Top, ts, tp⟩ else .Column)
    (h2 : ∀ x, x < GRID_SIZE →
      gridGet gD (GRID_SIZE - 1) x = if x = bp then .Door ⟨.Bottom, bs, bp⟩ else .Column)
    (h3 : ∀ y, y < GRID_SIZE →
      gridGet gD y 0 = if y = lp then .Door ⟨.Left, ls, lp⟩ else .Column)
    (h4 : ∀ y, y < GRID_SIZE →
      gridGet gD y (GRID_SIZE - 1) = if y = rp then .Door ⟨.Right, rs, rp⟩ else .Column) :
    borderOk gF := by
  refine ⟨tp, bp, lp, rp, htp, hbp, hlp, hrp, ?_, ?_, ?_, ?_⟩
  · intro x hx
    rw [border_carry hoff (Or.inl rfl), h1 x hx]
    split
    · rfl
    · rfl
  · intro x hx
    rw [border_carry hoff (Or.inr (Or.inl rfl)), h2 x hx]
    split
    · rfl
    · rfl
  · intro y hy
    rw [border_carry hoff (Or.inr (Or.inr (Or.inl rfl))), h3 y hy]
    split
    · rfl
    · rfl
  · intro y hy
    rw [border_carry hoff (Or.inr (Or.inr (Or.inr rfl))), h4 y hy]
    split
    · rfl
    · rfl

/-! ## Door sides per generator case -/

theorem mkPrevDoor_pos_bounds (p : Nat) :
    2 ≤ 2 + p % (GRID_SIZE - 4) ∧ 2 + p % (GRID_SIZE - 4) < GRID_SIZE - 2 := by
  have hG : GRID_SIZE = 40 := rfl
  have := Nat.mod_lt p (show 0 < GRID_SIZE - 4 by omega)
  omega

theorem placeDoors_sides {g : Grid} (hwf : gridWF g)
    (hbase : ∀ y x, y < GRID_SIZE → x < GRID_SIZE →
      (y = 0 ∨ y = GRID_SIZE - 1 ∨ x = 0 ∨ x = GRID_SIZE - 1) → gridGet g y x = .Column)
    {tp bp lp rp : Nat}
    (htp : 2 ≤ tp ∧ tp < GRID_SIZE - 2) (hbp : 2 ≤ bp ∧ bp < GRID_SIZE - 2)
    (hlp : 2 ≤ lp ∧ lp < GRID_SIZE - 2) (hrp : 2 ≤ rp ∧ rp < GRID_SIZE - 2)
    (ts bs ls rs : DoorState) :
    (∀ i, i < GRID_SIZE → gridGet (placeDoors g tp ts bp bs lp ls rp rs) 0 i =
      if i = tp then .Door ⟨.Top, ts, tp⟩ else .Column) ∧
    (∀ i, i < GRID_SIZE →
      gridGet (placeDoors g tp ts bp bs lp ls rp rs) (GRID_SIZE - 1) i =
      if i = bp then .Door ⟨.Bottom, bs, bp⟩ else .Column) ∧
    (∀ i, i < GRID_SIZE → gridGet (placeDoors g tp ts bp bs lp ls rp rs) i 0 =
      if i = lp then .Door ⟨.Left, ls, lp⟩ else .Column) ∧
    (∀ i, i < GRID_SIZE →
      gridGet (placeDoors g tp ts bp bs lp ls rp rs) i (GRID_SIZE - 1) =
      if i = rp then .Door ⟨.Right, rs, rp⟩ else .Column) := by
  have hG : GRID_SIZE = 40 := rfl
  obtain ⟨h1, h2, h3, h4⟩ := placeDoors_border hwf htp hbp hlp hrp ts bs ls rs
  refine ⟨?_, ?_, ?_, ?_⟩
  · intro i hi
    rw [h1 i hi]
    split
    · rfl
    · exact hbase 0 i (by omega) hi (Or.inl rfl)
  · intro i hi
    rw [h2 i hi]
    split
    · rfl
    · exact hbase (GRID_SIZE - 1) i (by omega) hi (Or.inr (Or.inl rfl))
  · intro i hi
    rw [h3 i hi]
    split
    · rfl
    · exact hbase i 0 hi (by omega) (Or.inr (Or.inr (Or.inl rfl)))
  · intro i hi
    rw [h4 i hi]
    split
    · rfl
    · exact hbase i (GRID_SIZE - 1) hi (by omega) (Or.inr (Or.inr (Or.inr rfl)))

theorem borderInit_column' : ∀ y x, y < GRID_SIZE → x < GRID_SIZE →
    (y = 0 ∨ y = GRID_SIZE - 1 ∨ x = 0 ∨ x = GRID_SIZE - 1) →
    gridGet (borderPhase initGrid) y x = .Column :=
  fun _ _ hy hx hb => borderInit_column hy hx hb

theorem playerBase_wf (r : Rng) :
    gridWF (gridSet (borderPhase initGrid) 1 (draw1 r) .Player) :=
  gridWF_set (borderPhase_wf gridWF_initGrid) _ _ _

theorem playerBase_border (r : Rng) : ∀ y x, y < GRID_SIZE → x < GRID_SIZE →
    (y = 0 ∨ y = GRID_SIZE - 1 ∨ x = 0 ∨ x = GRID_SIZE - 1) →
    gridGet (gridSet (borderPhase initGrid) 1 (draw1 r) .Player) y x = .Column := by
  intro y x hy hx hb
  have hd := draw1_bounds r
  have hG : GRID_SIZE = 40 := rfl
  rw [gridGet_set_ne _ _ (by omega)]
  exact borderInit_column hy hx hb

theorem doorsSides_none (r : Rng) :
    (∀ i, i < GRID_SIZE → gridGet (doorsPhase none (borderPhase initGrid) r).1 0 i =
      if i = draw1 r then .Door ⟨.Top, .Locked, draw1 r⟩ else .Column) ∧
    (∀ i, i < GRID_SIZE →
      gridGet (doorsPhase none (borderPhase initGrid) r).1 (GRID_SIZE - 1) i =
      if i = draw1 (rng1 r) then .Door ⟨.Bottom, .Locked, draw1 (rng1 r)⟩ else .Column) ∧
    (∀ i, i < GRID_SIZE → gridGet (doorsPhase none (borderPhase initGrid) r).1 i 0 =
      if i = draw1 (rng1 (rng1 r)) then .Door ⟨.Left, .Locked, draw1 (rng1 (rng1 r))⟩
      else .Column) ∧
    (∀ i, i < GRID_SIZE →
      gridGet (doorsPhase none (borderPhase initGrid) r).1 i (GRID_SIZE - 1) =
      if i = draw1 (rng1 (rng1 (rng1 r))) then
        .Door ⟨.Right, .Locked, draw1 (rng1 (rng1 (rng1 r)))⟩
      else .Column) := by
  rw [doorsPhase_none_eq]
  exact placeDoors_sides (playerBase_wf r) (playerBase_border r)
    (draw1_bounds r) (draw1_bounds (rng1 r)) (draw1_bounds (rng1 (rng1 r)))
    (draw1_bounds (rng1 (rng1 (rng1 r)))) _ _ _ _

theorem doorsSides_top (ds : DoorState) {dp : Nat} (hdp : 2 ≤ dp ∧ dp < GRID_SIZE - 2)
    (r : Rng) :
    (∀ i, i < GRID_SIZE →
      gridGet (doorsPhase (some ⟨.Top, ds, dp⟩) (borderPhase initGrid) r).1 0 i =
      if i = draw1 r then .Door ⟨.Top, .Locked, draw1 r⟩ else .Column) ∧
    (∀ i, i < GRID_SIZE →
      gridGet (doorsPhase (some ⟨.Top, ds, dp⟩) (borderPhase initGrid) r).1
        (GRID_SIZE - 1) i =
      if i = dp then .Door ⟨.Bottom, .TemporaryOpen, dp⟩ else .Column) ∧
    (∀ i, i < GRID_SIZE →
      gridGet (doorsPhase (some ⟨.Top, ds, dp⟩) (borderPhase initGrid) r).1 i 0 =
      if i = draw1 (rng1 (rng1 r)) then .Door ⟨.Left, .Locked, draw1 (rng1 (rng1 r))⟩
      else .Column) ∧
    (∀ i, i < GRID_SIZE →
      gridGet (doorsPhase (some ⟨.Top, ds, dp⟩) (borderPhase initGrid) r).1 i
        (GRID_SIZE - 1) =
      if i = draw1 (rng1 (rng1 (rng1 r))) then
        .Door ⟨.Right, .Locked, draw1 (rng1 (rng1 (rng1 r)))⟩
      else .Column) := by
  rw [doorsPhase_top_eq]
  exact placeDoors_sides (borderPhase_wf gridWF_initGrid) borderInit_column'
    (draw1_bounds r) hdp (draw1_bounds (rng1 (rng1 r)))
    (draw1_bounds (rng1 (rng1 (rng1 r)))) _ _ _ _

theorem doorsSides_bottom (ds : DoorState) {dp : Nat}
    (hdp : 2 ≤ dp ∧ dp < GRID_SIZE - 2) (r : Rng) :
    (∀ i, i < GRID_SIZE →
      gridGet (doorsPhase (some ⟨.Bottom, ds, dp⟩) (borderPhase initGrid) r).1 0 i =
      if i = dp then .Door ⟨.Top, .TemporaryOpen, dp⟩ else .Column) ∧
    (∀ i, i < GRID_SIZE →
      gridGet (doorsPhase (some ⟨.Bottom, ds, dp⟩) (borderPhase initGrid) r).1
        (GRID_SIZE - 1) i =
      if i = draw1 (rng1 r) then .Door ⟨.Bottom, .Locked, draw1 (rng1 r)⟩ else .Column) ∧
    (∀ i, i < GRID_SIZE →
      gridGet (doorsPhase (some ⟨.Bottom, ds, dp⟩) (borderPhase initGrid) r).1 i 0 =
      if i = draw1 (rng1 (rng1 r)) then .Door ⟨.Left, .Locked, draw1 (rng1 (rng1 r))⟩
      else .Column) ∧
    (∀ i, i < GRID_SIZE →
      gridGet (doorsPhase (some ⟨.Bottom, ds, dp⟩) (borderPhase initGrid) r).1 i
        (GRID_SIZE - 1) =
      if i = draw1 (rng1 (rng1 (rng1 r))) then
        .Door ⟨.Right, .Locked, draw1 (rng1 (rng1 (rng1 r)))⟩
      else .Column) := by
  rw [doorsPhase_bottom_eq]
  exact placeDoors_sides (borderPhase_wf gridWF_initGrid) borderInit_column'
    hdp (draw1_bounds (rng1 r)) (draw1_bounds (rng1 (rng1 r)))
    (draw1_bounds (rng1 (rng1 (rng1 r)))) _ _ _ _

theorem doorsSides_left (ds : DoorState) {dp : Nat}
    (hdp : 2 ≤ dp ∧ dp < GRID_SIZE - 2) (r : Rng) :
    (∀ i, i < GRID_SIZE →
      gridGet (doorsPhase (some ⟨.Left, ds, dp⟩) (borderPhase initGrid) r).1 0 i =
      if i = draw1 r then .Door ⟨.Top, .Locked, draw1 r⟩ else .Column) ∧
    (∀ i, i < GRID_SIZE →
      gridGet (doorsPhase (some ⟨.Left, ds, dp⟩) (borderPhase initGrid) r).1
        (GRID_SIZE - 1) i =
      if i = draw1 (rng1 r) then .Door ⟨.Bottom, .Locked, draw1 (rng1 r)⟩ else .Column) ∧
    (∀ i, i < GRID_SIZE →
      gridGet (doorsPhase (some ⟨.Left, ds, dp⟩) (borderPhase initGrid) r).1 i 0 =
      if i = draw1 (rng1 (rng1 r)) then .Door ⟨.Left, .Locked, draw1 (rng1 (rng1 r))⟩
      else .Column) ∧
    (∀ i, i < GRID_SIZE →
      gridGet (doorsPhase (some ⟨.Left, ds, dp⟩) (borderPhase initGrid) r).1 i
        (GRID_SIZE - 1) =
      if i = dp then .Door ⟨.Right, .TemporaryOpen, dp⟩ else .Column) := by
  rw [doorsPhase_left_eq]
  exact placeDoors_sides (borderPhase_wf gridWF_initGrid) borderInit_column'
    (draw1_bounds r) (draw1_bounds (rng1 r)) (draw1_bounds (rng1 (rng1 r))) hdp _ _ _ _

theorem doorsSides_right (ds : DoorState) {dp : Nat}
    (hdp : 2 ≤ dp ∧ dp < GRID_SIZE - 2) (r : Rng) :
    (∀ i, i < GRID_SIZE →
      gridGet (doorsPhase (some ⟨.Right, ds, dp⟩) (borderPhase initGrid) r).1 0 i =
      if i = draw1 r then .Door ⟨.Top, .Locked, draw1 r⟩ else .Column) ∧
    (∀ i, i < GRID_SIZE →
      gridGet (doorsPhase (some ⟨.Right, ds, dp⟩) (borderPhase initGrid) r).1
        (GRID_SIZE - 1) i =
      if i = draw1 (rng1 r) then .Door ⟨.Bottom, .Locked, draw1 (rng1 r)⟩ else .Column) ∧
    (∀ i, i < GRID_SIZE →
      gridGet (doorsPhase (some ⟨.Right, ds, dp⟩) (borderPhase initGrid) r).1 i 0 =
      if i = dp then .Door ⟨.Left, .TemporaryOpen, dp⟩ else .Column) ∧
    (∀ i, i < GRID_SIZE →
      gridGet (doorsPhase (some ⟨.Right, ds, dp⟩) (borderPhase initGrid) r).1 i
        (GRID_SIZE - 1) =
      if i = draw1 (rng1 (rng1 (rng1 r))) then
        .Door ⟨.Right, .Locked, draw1 (rng1 (rng1 (rng1 r)))⟩
      else .Column) := by
  rw [doorsPhase_right_eq]
  exact placeDoors_sides (borderPhase_wf gridWF_initGrid) borderInit_column'
    (draw1_bounds r) (draw1_bounds (rng1 r)) hdp
    (draw1_bounds (rng1 (rng1 (rng1 r)))) _ _ _ _

/-! ## The clear ring inside the border -/

theorem ring_not_interior {y x : Nat} (h : y = 1 ∨ y = GRID_SIZE - 2 ∨ x = 1 ∨ x = GRID_SIZE - 2) :
    ¬ Interior y x := by
  have hG : GRID_SIZE = 40 := rfl
  unfold Interior
  omega

theorem prePlacement_ring (prev : Option Door) (r : Rng) :
    (∀ i, 1 ≤ i → i ≤ GRID_SIZE - 2 →
      gridGet (prePlacement prev r).1 (GRID_SIZE - 2) i = .Empty ∧
      gridGet (prePlacement prev r).1 i 1 = .Empty ∧
      gridGet (prePlacement prev r).1 i (GRID_SIZE - 2) = .Empty) ∧
    (∀ d, prev = some d → ∀ i, 1 ≤ i → i ≤ GRID_SIZE - 2 →
      gridGet (prePlacement prev r).1 1 i = .Empty) ∧
    (prev = none → ∀ i, 1 ≤ i → i ≤ GRID_SIZE - 2 →
      gridGet (prePlacement prev r).1 1 i = if i = draw1 r then .Player else .Empty) := by
  have hG : GRID_SIZE = 40 := rfl
  have hd := draw1_bounds r
  have hoff := prePlacement_off prev r
  have hwfB := borderPhase_wf (g := initGrid) gridWF_initGrid
  refine ⟨?_, ?_, ?_⟩
  · intro i h1 h2
    refine ⟨?_, ?_, ?_⟩
    · rw [hoff _ _ (ring_not_interior (Or.inr (Or.inl rfl)))]
      cases prev with
      | none =>
        rw [doorsPhase_interior_none hwfB r (by omega) (by omega) h1 h2,
          if_neg (by omega), borderInit_get (by omega) (by omega), if_neg (by omega)]
      | some d =>
        rw [doorsPhase_interior_some d r (by omega) (by omega) h1 h2,
          borderInit_get (by omega) (by omega), if_neg (by omega)]
    · rw [hoff _ _ (ring_not_interior (Or.inr (Or.inr (Or.inl rfl))))]
      cases prev with
      | none =>
        rw [doorsPhase_interior_none hwfB r h1 h2 (by omega) (by omega),
          if_neg (by omega), borderInit_get (by omega) (by omega), if_neg (by omega)]
      | some d =>
        rw [doorsPhase_interior_some d r h1 h2 (by omega) (by omega),
          borderInit_get (by omega) (by omega), if_neg (by omega)]
    · rw [hoff _ _ (ring_not_interior (Or.inr (Or.inr (Or.inr rfl))))]
      cases prev with
      | none =>
        rw [doorsPhase_interior_none hwfB r h1 h2 (by omega) (by omega),
          if_neg (by omega), borderInit_get (by omega) (by omega), if_neg (by omega)]
      | some d =>
        rw [doorsPhase_interior_some d r h1 h2 (by omega) (by omega),
          borderInit_get (by omega) (by omega), if_neg (by omega)]
  · intro d hprev i h1 h2
    subst hprev
    rw [hoff _ _ (ring_not_interior (Or.inl rfl)),
      doorsPhase_interior_some d r (by omega) (by omega) h1 h2,
      borderInit_get (by omega) (by omega), if_neg (by omega)]
  · intro hprev i h1 h2
    subst hprev
    rw [hoff _ _ (ring_not_interior (Or.inl rfl)),
      doorsPhase_interior_none hwfB r (by omega) (by omega) h1 h2]
    by_cases hi : i = draw1 r
    · rw [if_pos ⟨rfl, hi⟩, if_pos hi]
    · rw [if_neg (by tauto), if_neg hi, borderInit_get (by omega) (by omega),
        if_neg (by omega)]

/-! ## Movement resolver claims -/

theorem vec3_add_zero (v : Vec3) : v + Vec3.zero = v := by
  obtain ⟨a, b, c⟩ := v
  show Vec3.mk (a + 0) (b + 0) (c + 0) = Vec3.mk a b c
  norm_num

theorem player_move_loop_converged (cast : CastFn) (t : Vec3)
    (h : ∀ p m, ∃ d, cast p m = some ⟨.Converged, some d⟩) :
    ∀ l : List Nat, 3 ∈ l → ∀ m, player_move_loop cast t l m = some t := by
  intro l
  induction l with
  | nil =>
    intro h3
    simp at h3
  | cons i rest ih =>
    intro h3 m
    obtain ⟨d0, h0⟩ := h (t + m) m
    by_cases hi : i = 3
    · simp only [player_move_loop, h0, hi, vec3_add_zero]
      simp
    · simp only [player_move_loop, h0, if_neg hi]
      refine ih ?_ _
      rcases List.mem_cons.mp h3 with h3' | h3'
      · exact absurd h3'.symm hi
      · exact h3'

/-- C4: obstacle-free movement: when the swept-capsule query reports no
contact for the tentative displacement `velocity * dt` (the query is
identical on every pass since the displacement is never corrected), the
body ends the tick at `start + velocity * dt`, unchanged. -/
theorem c4_obstacle_free_movement (cast : CastFn) (t v : Vec3) (dt : ℚ)
    (h : cast (t + Vec3.smul dt v) (Vec3.smul dt v) = none) :
    player_move cast t v dt = some (t + Vec3.smul dt v) := by
  unfold player_move
  simp only [player_move_loop, h]

theorem c4_witness :
    player_move (fun _ _ => none) ⟨1, 2, 3⟩ ⟨4, 5, 6⟩ 2 =
      some (Vec3.mk 1 2 3 + Vec3.smul 2 ⟨4, 5, 6⟩) :=
  c4_obstacle_free_movement (fun _ _ => none) ⟨1, 2, 3⟩ ⟨4, 5, 6⟩ 2 rfl

/-- C5: blocked movement: when every resolver pass's sweep reports a
converged contact (with contact details present), the 4th and final
pass zeroes the displacement, so the body's net displacement for the
tick is zero. -/
theorem c5_blocked_movement (cast : CastFn) (t v : Vec3) (dt : ℚ)
    (h : ∀ p m, ∃ d, cast p m = some ⟨.Converged, some d⟩) :
    player_move cast t v dt = some t := by
  unfold player_move
  exact player_move_loop_converged cast t h [0, 1, 2, 3] (by simp) _

theorem c5_witness :
    player_move (fun _ _ => some ⟨.Converged, some ⟨⟨1, 0, 0⟩⟩⟩) ⟨1, 1, 0⟩ ⟨2, 0, 0⟩ 1 =
      some ⟨1, 1, 0⟩ :=
  c5_blocked_movement (fun _ _ => some ⟨.Converged, some ⟨⟨1, 0, 0⟩⟩⟩) ⟨1, 1, 0⟩
    ⟨2, 0, 0⟩ 1 (fun _ _ => ⟨⟨⟨1, 0, 0⟩⟩, rfl⟩)

/-! ## Progression claims -/

/-- C6: teardown ordering: `level_switch` never despawns anything (every
entity alive before the switch is still alive after, for any number of
`LevelSwitch` events); a run of `level_delete_old` whose queued events
are all `Open` deletes nothing and leaves the state untouched; a single
`Open` finish event is a no-op. -/
theorem c6_teardown_ordering :
    (∀ (newObjs : List WEntity) (ws : World × LevelState) (events : List Unit)
      (e : WEntity), e ∈ ws.1.entities → e ∈ (level_switch newObjs ws events).1.entities) ∧
    (∀ (ws : World × LevelState) (events : List DoorAnimationType),
      (∀ ev ∈ events, ev = DoorAnimationType.Open) →
      level_delete_old ws events = some ws) ∧
    (∀ ws : World × LevelState,
      level_delete_old_step ws DoorAnimationType.Open = some ws) := by
  refine ⟨?_, ?_, ?_⟩
  · intro newObjs ws events e he
    unfold level_switch
    induction events generalizing ws with
    | nil => exact he
    | cons a rest ih =>
      simp only [List.foldl_cons]
      refine ih (level_switch_step newObjs ws) ?_
      unfold level_switch_step
      simp only
      exact List.mem_append_left _ he
  · intro ws events hopen
    unfold level_delete_old
    induction events generalizing ws with
    | nil => rfl
    | cons a rest ih =>
      have ha := hopen a (List.mem_cons_self _ _)
      subst ha
      simp only [List.foldl_cons]
      exact ih ws (fun ev hev => hopen ev (List.mem_cons_of_mem _ hev))
  · intro ws
    rfl

theorem c6_witness :
    (⟨5, true⟩ : WEntity) ∈
      (level_switch [⟨9, true⟩] (⟨[⟨5, true⟩]⟩, ⟨false, []⟩) [()]).1.entities ∧
    level_delete_old (⟨[⟨5, true⟩]⟩, ⟨false, []⟩)
      [DoorAnimationType.Open, DoorAnimationType.Open] =
      some (⟨[⟨5, true⟩]⟩, ⟨false, []⟩) :=
  ⟨c6_teardown_ordering.1 [⟨9, true⟩] (⟨[⟨5, true⟩]⟩, ⟨false, []⟩) [()] ⟨5, true⟩
    (by decide),
   c6_teardown_ordering.2.1 (⟨[⟨5, true⟩]⟩, ⟨false, []⟩)
    [DoorAnimationType.Open, DoorAnimationType.Open] (by decide)⟩

/-- C7 counterexample: a level that starts with zero live hostiles (the
hostile count never transitions from nonzero to zero) still gets a
`LevelFinished` notification on its first tick: the run consisting of
one tick with a queued `LevelStarted` event and a hostile count of 0
emits one notification, while the claim requires zero. -/
theorem c7_counterexample :
    (level_progress_run ⟨true, []⟩ [([()], 0)]).2 = 1 := by decide

theorem level_progress_emit_iff (remaining : Nat) (evs : List Unit) (st : LevelState) :
    (level_progress remaining evs st).2 = true ↔
      remaining = 0 ∧ (evs.isEmpty = true → st.finished = false) := by
  unfold level_progress
  by_cases he : evs.isEmpty <;> by_cases hr : remaining = 0 <;>
    cases hf : st.finished <;> simp [he, hr, hf]

theorem level_progress_emit_finished (remaining : Nat) (evs : List Unit)
    (st : LevelState) (h : (level_progress remaining evs st).2 = true) :
    (level_progress remaining evs st).1.finished = true := by
  obtain ⟨hr, himp⟩ := (level_progress_emit_iff remaining evs st).mp h
  subst hr
  unfold level_progress
  by_cases he : evs.isEmpty
  · simp [he, himp he]
  · simp [he]

theorem level_progress_keep_finished (remaining : Nat) (evs : List Unit)
    (st : LevelState) (hevs : evs = []) (h : st.finished = true) :
    (level_progress remaining evs st).1.finished = true ∧
    (level_progress remaining evs st).2 = false := by
  subst hevs
  unfold level_progress
  simp [h]

theorem progressStep_eq (st : LevelState) (c : Nat) (t : List Unit × Nat) :
    progressStep (st, c) t =
      ((level_progress t.2 t.1 st).1,
       c + if (level_progress t.2 t.1 st).2 then 1 else 0) := rfl

theorem level_progress_run_shift (ticks : List (List Unit × Nat)) :
    ∀ (st : LevelState) (c : Nat),
    ticks.foldl progressStep (st, c) =
      ((level_progress_run st ticks).1, c + (level_progress_run st ticks).2) := by
  unfold level_progress_run
  induction ticks with
  | nil => intro st c; simp
  | cons t rest ih =>
    intro st c
    rw [List.foldl_cons, List.foldl_cons, progressStep_eq, progressStep_eq]
    conv_lhs => rw [ih]
    conv_rhs => rw [ih]
    simp only [Prod.mk.injEq]
    refine ⟨trivial, by omega⟩

theorem level_progress_run_finished (ticks : List (List Unit × Nat))
    (hticks : ∀ t ∈ ticks, t.1 = []) :
    ∀ st : LevelState, st.finished = true → (level_progress_run st ticks).2 = 0 := by
  induction ticks with
  | nil => intro st _; rfl
  | cons t rest ih =>
    intro st hfin
    unfold level_progress_run
    rw [List.foldl_cons, progressStep_eq, level_progress_run_shift]
    obtain ⟨h1, h2⟩ := level_progress_keep_finished t.2 t.1 st
      (hticks t (List.mem_cons_self _ _)) hfin
    rw [h2]
    have h3 := ih (fun u hu => hticks u (List.mem_cons_of_mem _ hu)) _ h1
    simp [h3]

/-- C7 amended: `LevelFinished` is sent on a tick exactly when the live
hostile count is zero and the finished flag — after the queued
`LevelStarted` events, which reset it, are processed — is still false
(including when the count was zero from the level's start); since the
send marks the level finished, over any run with no further
`LevelStarted` event it is sent at most once. -/
theorem c7_level_finished_once :
    (∀ (remaining : Nat) (evs : List Unit) (st : LevelState),
      (level_progress remaining evs st).2 = true ↔
        remaining = 0 ∧ (evs.isEmpty = true → st.finished = false)) ∧
    (∀ (st : LevelState) (ticks : List (List Unit × Nat)),
      (∀ t ∈ ticks, t.1 = []) → (level_progress_run st ticks).2 ≤ 1) := by
  refine ⟨level_progress_emit_iff, ?_⟩
  intro st ticks hticks
  induction ticks generalizing st with
  | nil => exact Nat.zero_le 1
  | cons t rest ih =>
    unfold level_progress_run
    rw [List.foldl_cons, progressStep_eq, level_progress_run_shift]
    rcases hemit : (level_progress t.2 t.1 st).2 with _ | _
    · simp only [hemit, Bool.false_eq_true, if_false]
      simpa using ih _ (fun u hu => hticks u (List.mem_cons_of_mem _ hu))
    · rw [level_progress_run_finished rest
        (fun u hu => hticks u (List.mem_cons_of_mem _ hu)) _
        (level_progress_emit_finished t.2 t.1 st hemit)]
      simp

theorem c7_witness :
    ((level_progress 0 [] ⟨false, []⟩).2 = true ↔
      (0 = 0 ∧ (([] : List Unit).isEmpty = true →
        (⟨false, []⟩ : LevelState).finished = false))) ∧
    (level_progress_run ⟨false, []⟩ [([], 0), ([], 3), ([], 0)]).2 ≤ 1 :=
  ⟨c7_level_finished_once.1 0 [] ⟨false, []⟩,
   c7_level_finished_once.2 ⟨false, []⟩ [([], 0), ([], 3), ([], 0)] (by decide)⟩

/-- C8 counterexample: at teardown time a pending-removal handle whose
entity no longer exists does not produce a silent no-op: processing
`DoorAnimationFinished(Close)` with batch `[5]` over a world with no
entities panics (`commands.get_entity(..).unwrap()` on `None`, modelled
as `none`) instead of deleting the rest and clearing the batch. -/
theorem c8_counterexample :
    level_delete_old_step (⟨[]⟩, ⟨false, [5]⟩) DoorAnimationType.Close = none := by
  decide

/-- C8 amended: when a `DoorAnimationFinished(Close)` event triggers
deletion and every handle in the pending-removal batch still has a live
entity, the teardown despawns exactly the batch (every entity whose id
is in the batch, and no other) and clears the batch; a stale handle
instead panics via `unwrap` (see the counterexample). -/
theorem c8_missing_handle_policy (w : World) (st : LevelState)
    (h : ∀ id ∈ st.old_level_objects, ∃ e ∈ w.entities, e.id = id) :
    level_delete_old_step (w, st) DoorAnimationType.Close =
      some (⟨w.entities.filter (fun e => ¬ st.old_level_objects.contains e.id)⟩,
            { st with old_level_objects := [] }) := by
  unfold level_delete_old_step
  rw [if_pos ?hc]
  case hc =>
    rw [List.all_eq_true]
    intro id hid
    rw [List.any_eq_true]
    obtain ⟨e, he, heq⟩ := h id hid
    exact ⟨e, he, by simp [heq]⟩

theorem c8_witness :
    level_delete_old_step (⟨[⟨5, true⟩, ⟨6, false⟩]⟩, ⟨false, [5]⟩)
      DoorAnimationType.Close = some (⟨[⟨6, false⟩]⟩, ⟨false, []⟩) := by
  rw [c8_missing_handle_policy ⟨[⟨5, true⟩, ⟨6, false⟩]⟩ ⟨false, [5]⟩ (by decide)]
  decide

/-! ## Generator claims -/

theorem sideCell_carry {gD gF : Grid} (hoff : OffInterior gD gF) (s : DoorType)
    (q : Nat) : sideCell gF s q = sideCell gD s q := by
  cases s
  · exact border_carry hoff (Or.inl rfl)
  · exact border_carry hoff (Or.inr (Or.inl rfl))
  · exact border_carry hoff (Or.inr (Or.inr (Or.inl rfl)))
  · exact border_carry hoff (Or.inr (Or.inr (Or.inr rfl)))

theorem doorAt_side {gD gF : Grid} (hoff : OffInterior gD gF) {s : DoorType}
    {q0 : Nat} {d : Door}
    (hside : ∀ i, i < GRID_SIZE →
      sideCell gD s i = if i = q0 then CellType.Door d else CellType.Column)
    (hq0 : q0 < GRID_SIZE) :
    sideCell gF s q0 = CellType.Door d := by
  rw [sideCell_carry hoff, hside q0 hq0, if_pos rfl]

theorem lockedSide_exists {gD gF : Grid} (hoff : OffInterior gD gF) {s : DoorType}
    {q0 : Nat} (hq : 2 ≤ q0 ∧ q0 < GRID_SIZE - 2)
    (hside : ∀ i, i < GRID_SIZE →
      sideCell gD s i =
        if i = q0 then CellType.Door ⟨s, DoorState.Locked, q0⟩ else CellType.Column) :
    ∃ q, 2 ≤ q ∧ q < GRID_SIZE - 2 ∧ sideCell gF s q = .Door ⟨s, .Locked, q⟩ := by
  have hG : GRID_SIZE = 40 := rfl
  exact ⟨q0, hq.1, hq.2, doorAt_side hoff hside (by omega)⟩

theorem generate_level_back (prev : Option Door) (r : Rng) (fuel : Nat) {g : Grid}
    (h : generate_level prev r fuel = some g) {y x : Nat} {c : CellType}
    (hc : gridGet g y x = c) (hw : c ≠ .Weapon) (he : c ≠ .Enemy) :
    gridGet (prePlacement prev r).1 y x = c := by
  by_cases heq : gridGet g y x = gridGet (prePlacement prev r).1 y x
  · rw [← heq]
    exact hc
  · obtain ⟨-, hf⟩ := (generate_level_some prev r fuel h).2.2.1 y x heq
    rcases hf with hf | hf
    · exact absurd (hc.symm.trans hf) hw
    · exact absurd (hc.symm.trans hf) he

theorem gridGet_ge {g : Grid} (hwf : gridWF g) {y x : Nat}
    (h : GRID_SIZE ≤ y ∨ GRID_SIZE ≤ x) : gridGet g y x = .Empty := by
  unfold gridGet
  by_cases hy : y < g.length
  · have hrowlen : (g.getD y ([] : List CellType)).length = GRID_SIZE := by
      rw [listGetD_lt hy]
      exact hwf.2 _ (List.getElem_mem hy)
    rcases h with h | h
    · have hlen := hwf.1
      omega
    · rw [listGetD_le (by rw [hrowlen]; exact h)]
  · rw [listGetD_le (Nat.le_of_not_lt hy), listGetD_le (Nat.zero_le x)]

theorem mkPrevDoor_pos_lt (dt : DoorType) (ds : DoorState) (p : Nat) :
    (mkPrevDoor dt ds p).grid_pos < GRID_SIZE := by
  show 2 + p % (GRID_SIZE - 4) < GRID_SIZE
  have hG : GRID_SIZE = 40 := rfl
  have := mkPrevDoor_pos_bounds p
  omega

/-- C1: door continuity — for a previous exit door on side `dt` at any
border position (encoded as `mkPrevDoor dt ds p`, covering exactly the
positions `[2, GRID_SIZE - 2)`), every grid the generator returns has on
the side opposite `dt` a door at that same position with state
`TemporaryOpen`, while each of the other three sides has a `Locked` door
at some position in `[2, GRID_SIZE - 2)`. -/
theorem c1_door_continuity (dt : DoorType) (ds : DoorState) (p : Nat) (r : Rng)
    (fuel : Nat) :
    optionAll (fun g =>
      sideCell g dt.opposite (mkPrevDoor dt ds p).grid_pos =
        .Door ⟨dt.opposite, .TemporaryOpen, (mkPrevDoor dt ds p).grid_pos⟩ ∧
      ∀ s : DoorType, s ≠ dt.opposite →
        ∃ q, 2 ≤ q ∧ q < GRID_SIZE - 2 ∧ sideCell g s q = .Door ⟨s, .Locked, q⟩)
      (generate_level (some (mkPrevDoor dt ds p)) r fuel) := by
  cases hgen : generate_level (some (mkPrevDoor dt ds p)) r fuel with
  | none => trivial
  | some g =>
    have hs := generate_level_some (some (mkPrevDoor dt ds p)) r fuel hgen
    have hoffT := (prePlacement_off (some (mkPrevDoor dt ds p)) r).offTrans hs.2.1
    have hG : GRID_SIZE = 40 := rfl
    have hpb := mkPrevDoor_pos_bounds p
    cases dt with
    | Top =>
      obtain ⟨h1, h2, h3, h4⟩ := doorsSides_top ds hpb r
      refine ⟨doorAt_side hoffT h2 (mkPrevDoor_pos_lt _ ds p), ?_⟩
      intro s hsne
      cases s with
      | Top => exact lockedSide_exists hoffT (draw1_bounds r) h1
      | Bottom => exact absurd rfl hsne
      | Left => exact lockedSide_exists hoffT (draw1_bounds (rng1 (rng1 r))) h3
      | Right => exact lockedSide_exists hoffT (draw1_bounds (rng1 (rng1 (rng1 r)))) h4
    | Bottom =>
      obtain ⟨h1, h2, h3, h4⟩ := doorsSides_bottom ds hpb r
      refine ⟨doorAt_side hoffT h1 (mkPrevDoor_pos_lt _ ds p), ?_⟩
      intro s hsne
      cases s with
      | Top => exact absurd rfl hsne
      | Bottom => exact lockedSide_exists hoffT (draw1_bounds (rng1 r)) h2
      | Left => exact lockedSide_exists hoffT (draw1_bounds (rng1 (rng1 r))) h3
      | Right => exact lockedSide_exists hoffT (draw1_bounds (rng1 (rng1 (rng1 r)))) h4
    | Left =>
      obtain ⟨h1, h2, h3, h4⟩ := doorsSides_left ds hpb r
      refine ⟨doorAt_side hoffT h4 (mkPrevDoor_pos_lt _ ds p), ?_⟩
      intro s hsne
      cases s with
      | Top => exact lockedSide_exists hoffT (draw1_bounds r) h1
      | Bottom => exact lockedSide_exists hoffT (draw1_bounds (rng1 r)) h2
      | Left => exact lockedSide_exists hoffT (draw1_bounds (rng1 (rng1 r))) h3
      | Right => exact absurd rfl hsne
    | Right =>
      obtain ⟨h1, h2, h3, h4⟩ := doorsSides_right ds hpb r
      refine ⟨doorAt_side hoffT h3 (mkPrevDoor_pos_lt _ ds p), ?_⟩
      intro s hsne
      cases s with
      | Top => exact lockedSide_exists hoffT (draw1_bounds r) h1
      | Bottom => exact lockedSide_exists hoffT (draw1_bounds (rng1 r)) h2
      | Left => exact absurd rfl hsne
      | Right => exact lockedSide_exists hoffT (draw1_bounds (rng1 (rng1 (rng1 r)))) h4

/-- C2: border invariant — every grid the generator returns (any
previous exit door or none, any RNG, any fuel) satisfies `borderOk`: on
each of the four border sides exactly one cell is a `Door`, at an index
in `[2, GRID_SIZE - 2)`, and every other cell of the outer ring is a
`Column` wall. -/
theorem c2_border_invariant (prevE : Option (DoorType × DoorState × Nat)) (r : Rng)
    (fuel : Nat) :
    optionAll borderOk (generate_level (prevOf prevE) r fuel) := by
  cases hgen : generate_level (prevOf prevE) r fuel with
  | none => trivial
  | some g =>
    have hs := generate_level_some (prevOf prevE) r fuel hgen
    have hoffT := (prePlacement_off (prevOf prevE) r).offTrans hs.2.1
    cases prevE with
    | none =>
      obtain ⟨h1, h2, h3, h4⟩ := doorsSides_none r
      exact borderOk_of_sides hoffT (draw1_bounds r) (draw1_bounds (rng1 r))
        (draw1_bounds (rng1 (rng1 r))) (draw1_bounds (rng1 (rng1 (rng1 r))))
        _ _ _ _ h1 h2 h3 h4
    | some t =>
      obtain ⟨dt, ds, p⟩ := t
      have hpb := mkPrevDoor_pos_bounds p
      cases dt with
      | Top =>
        obtain ⟨h1, h2, h3, h4⟩ := doorsSides_top ds hpb r
        exact borderOk_of_sides hoffT (draw1_bounds r) hpb
          (draw1_bounds (rng1 (rng1 r))) (draw1_bounds (rng1 (rng1 (rng1 r))))
          _ _ _ _ h1 h2 h3 h4
      | Bottom =>
        obtain ⟨h1, h2, h3, h4⟩ := doorsSides_bottom ds hpb r
        exact borderOk_of_sides hoffT hpb (draw1_bounds (rng1 r))
          (draw1_bounds (rng1 (rng1 r))) (draw1_bounds (rng1 (rng1 (rng1 r))))
          _ _ _ _ h1 h2 h3 h4
      | Left =>
        obtain ⟨h1, h2, h3, h4⟩ := doorsSides_left ds hpb r
        exact borderOk_of_sides hoffT (draw1_bounds r) (draw1_bounds (rng1 r))
          (draw1_bounds (rng1 (rng1 r))) hpb _ _ _ _ h1 h2 h3 h4
      | Right =>
        obtain ⟨h1, h2, h3, h4⟩ := doorsSides_right ds hpb r
        exact borderOk_of_sides hoffT (draw1_bounds r) (draw1_bounds (rng1 r))
          hpb (draw1_bounds (rng1 (rng1 (rng1 r)))) _ _ _ _ h1 h2 h3 h4

/-- C3: pocket-elimination postcondition — in every grid the generator
returns, no cell strictly inside the outer ring (rows and columns `1`
through `GRID_SIZE - 2`) is an `Empty` cell with all four orthogonal
neighbors `Column`: this holds in the interior region the elimination
pass visits and on the untouched inner ring alike, and survives the
weapon/enemy placements. -/
theorem c3_no_pockets (prevE : Option (DoorType × DoorState × Nat)) (r : Rng)
    (fuel : Nat) :
    optionAll (fun g => ∀ y x, 1 ≤ y → y ≤ GRID_SIZE - 2 → 1 ≤ x → x ≤ GRID_SIZE - 2 →
      ¬ trappedEmpty g y x)
      (generate_level (prevOf prevE) r fuel) := by
  cases hgen : generate_level (prevOf prevE) r fuel with
  | none => trivial
  | some g =>
    intro y x h1y h2y h1x h2x htrap
    have hG : GRID_SIZE = 40 := rfl
    obtain ⟨hemp, hn1, hn2, hn3, hn4⟩ := htrap
    have hemp' := generate_level_back (prevOf prevE) r fuel hgen hemp
      (by simp) (by simp)
    have hn1' := generate_level_back (prevOf prevE) r fuel hgen hn1 (by simp) (by simp)
    have hn2' := generate_level_back (prevOf prevE) r fuel hgen hn2 (by simp) (by simp)
    have hn3' := generate_level_back (prevOf prevE) r fuel hgen hn3 (by simp) (by simp)
    have hn4' := generate_level_back (prevOf prevE) r fuel hgen hn4 (by simp) (by simp)
    by_cases hint : Interior y x
    · have hwfW := (wallsPhase_spec (doorsPhase (prevOf prevE) (borderPhase initGrid) r).1
        (doorsPhase (prevOf prevE) (borderPhase initGrid) r).2 (doorsGrid_wf (prevOf prevE) r)).1
      have hempP : gridGet (pocketPhase (wallsPhase
          (doorsPhase (prevOf prevE) (borderPhase initGrid) r).1
          (doorsPhase (prevOf prevE) (borderPhase initGrid) r).2).1) y x = .Empty := by
        rw [← prePlacement_fst]
        exact hemp'
      obtain ⟨qy, qx, hadj, hne⟩ := pocketPhase_no_trapped_interior hwfW
        ⟨hint.1, hint.2.1⟩ ⟨hint.2.2.1, hint.2.2.2⟩ hempP
      rw [← prePlacement_fst] at hne
      rcases hadj with ⟨e1, e2⟩ | ⟨e1, e2⟩ | ⟨e1, e2⟩ | ⟨e1, e2⟩
      · subst e2
        have hq : qy = y - 1 := by omega
        rw [hq] at hne
        exact hne hn1'
      · subst e2
        rw [← e1] at hne
        exact hne hn2'
      · subst e1
        have hq : qx = x - 1 := by omega
        rw [hq] at hne
        exact hne hn4'
      · subst e1
        rw [← e2] at hne
        exact hne hn3'
    · have hring := prePlacement_ring (prevOf prevE) r
      have hcases : y = 1 ∨ y = GRID_SIZE - 2 ∨ x = 1 ∨ x = GRID_SIZE - 2 := by
        unfold Interior at hint
        omega
      rcases hcases with hy1 | hy38 | hx1 | hx38
      · subst hy1
        by_cases hxe : x ≤ GRID_SIZE - 3
        · cases prevE with
          | none =>
            have hv := hring.2.2 rfl (x + 1) (by omega) (by omega)
            rw [hn3'] at hv
            split at hv <;> simp at hv
          | some t =>
            have hv := hring.2.1 (mkPrevDoor t.1 t.2.1 t.2.2) rfl (x + 1)
              (by omega) (by omega)
            rw [hn3'] at hv
            simp at hv
        · cases prevE with
          | none =>
            have hv := hring.2.2 rfl (x - 1) (by omega) (by omega)
            rw [hn4'] at hv
            split at hv <;> simp at hv
          | some t =>
            have hv := hring.2.1 (mkPrevDoor t.1 t.2.1 t.2.2) rfl (x - 1)
              (by omega) (by omega)
            rw [hn4'] at hv
            simp at hv
      · subst hy38
        by_cases hxe : x ≤ GRID_SIZE - 3
        · have hv := (hring.1 (x + 1) (by omega) (by omega)).1
          rw [hn3'] at hv
          simp at hv
        · have hv := (hring.1 (x - 1) (by omega) (by omega)).1
          rw [hn4'] at hv
          simp at hv
      · subst hx1
        by_cases hye : y ≤ GRID_SIZE - 3
        · have hv := (hring.1 (y + 1) (by omega) (by omega)).2.1
          rw [hn2'] at hv
          simp at hv
        · have hv := (hring.1 (y - 1) (by omega) (by omega)).2.1
          rw [hn1'] at hv
          simp at hv
      · subst hx38
        by_cases hye : y ≤ GRID_SIZE - 3
        · have hv := (hring.1 (y + 1) (by omega) (by omega)).2.2
          rw [hn2'] at hv
          simp at hv
        · have hv := (hring.1 (y - 1) (by omega) (by omega)).2.2
          rw [hn1'] at hv
          simp at hv

/-- C9: placement counts — every grid the generator returns contains
exactly `LEVEL_WEAPON_SPAWNS` `Weapon` cells and exactly `LEVEL_ENEMIES`
`Enemy` cells, and every such cell sits on a cell that was `Empty` in
the pre-placement grid (border, doors, obstacle strips and pocket pass),
so placements never overwrite walls, doors, the player spawn, or each
other. -/
theorem c9_placement_counts (prevE : Option (DoorType × DoorState × Nat)) (r : Rng)
    (fuel : Nat) :
    optionAll (fun g =>
      countCells g CellType.isWeapon = LEVEL_WEAPON_SPAWNS ∧
      countCells g CellType.isEnemy = LEVEL_ENEMIES ∧
      ∀ y x, (gridGet g y x = .Weapon ∨ gridGet g y x = .Enemy) →
        gridGet (prePlacement (prevOf prevE) r).1 y x = .Empty)
      (generate_level (prevOf prevE) r fuel) := by
  cases hgen : generate_level (prevOf prevE) r fuel with
  | none => trivial
  | some g =>
    obtain ⟨hwf, hoff2, hchg, hcw, hce⟩ := generate_level_some (prevOf prevE) r fuel hgen
    have hwfPre := prePlacement_wf (prevOf prevE) r
    have hnow : noCells (prePlacement (prevOf prevE) r).1 CellType.isWeapon :=
      prePlacement_noCells (prevOf prevE) r rfl rfl (fun d => rfl) rfl
    have hnoe : noCells (prePlacement (prevOf prevE) r).1 CellType.isEnemy :=
      prePlacement_noCells (prevOf prevE) r rfl rfl (fun d => rfl) rfl
    refine ⟨?_, ?_, ?_⟩
    · rw [hcw, countCells_eq_zero hwfPre hnow]
      exact Nat.zero_add _
    · rw [hce, countCells_eq_zero hwfPre hnoe]
      exact Nat.zero_add _
    · intro y x hwe
      by_cases hy : y < GRID_SIZE
      · by_cases hx : x < GRID_SIZE
        · by_cases heq : gridGet g y x = gridGet (prePlacement (prevOf prevE) r).1 y x
          · rcases hwe with hv | hv
            · have hc := hnow y x hy hx
              rw [← heq, hv] at hc
              simp [CellType.isWeapon] at hc
            · have hc := hnoe y x hy hx
              rw [← heq, hv] at hc
              simp [CellType.isEnemy] at hc
          · exact (hchg y x heq).1
        · exact gridGet_ge hwfPre (Or.inr (Nat.le_of_not_lt hx))
      · exact gridGet_ge hwfPre (Or.inl (Nat.le_of_not_lt hy))

/-- C10: clear-corridor invariant — every change the generator makes
after the door phase (obstacle strips, pocket conversions, weapon and
enemy placements) lies strictly inside rows and columns
`[2, GRID_SIZE - 2)`; consequently in every returned grid the one-cell
ring just inside the border — row `1`, row `GRID_SIZE - 2`, column `1`,
column `GRID_SIZE - 2` — is all `Empty`, except that with no previous
door (first level) row `1` carries the single `Player` spawn at the
drawn top-door position. -/
theorem c10_clear_corridor (prevE : Option (DoorType × DoorState × Nat)) (r : Rng)
    (fuel : Nat) :
    optionAll (fun g =>
      OffInterior (doorsPhase (prevOf prevE) (borderPhase initGrid) r).1 g ∧
      (∀ i, 1 ≤ i → i ≤ GRID_SIZE - 2 →
        gridGet g (GRID_SIZE - 2) i = .Empty ∧
        gridGet g i 1 = .Empty ∧
        gridGet g i (GRID_SIZE - 2) = .Empty) ∧
      (∀ t, prevE = some t → ∀ i, 1 ≤ i → i ≤ GRID_SIZE - 2 →
        gridGet g 1 i = .Empty) ∧
      (prevE = none → ∀ i, 1 ≤ i → i ≤ GRID_SIZE - 2 →
        gridGet g 1 i = if i = draw1 r then .Player else .Empty))
      (generate_level (prevOf prevE) r fuel) := by
  cases hgen : generate_level (prevOf prevE) r fuel with
  | none => trivial
  | some g =>
    have hs := generate_level_some (prevOf prevE) r fuel hgen
    have hoffT := (prePlacement_off (prevOf prevE) r).offTrans hs.2.1
    have hoff2 := hs.2.1
    have hring := prePlacement_ring (prevOf prevE) r
    refine ⟨hoffT, ?_, ?_, ?_⟩
    · intro i h1 h2
      refine ⟨?_, ?_, ?_⟩
      · rw [hoff2 _ _ (ring_not_interior (Or.inr (Or.inl rfl)))]
        exact (hring.1 i h1 h2).1
      · rw [hoff2 _ _ (ring_not_interior (Or.inr (Or.inr (Or.inl rfl))))]
        exact (hring.1 i h1 h2).2.1
      · rw [hoff2 _ _ (ring_not_interior (Or.inr (Or.inr (Or.inr rfl))))]
        exact (hring.1 i h1 h2).2.2
    · intro t ht i h1 h2
      rw [hoff2 _ _ (ring_not_interior (Or.inl rfl))]
      exact hring.2.1 (mkPrevDoor t.1 t.2.1 t.2.2) (by rw [ht]; rfl) i h1 h2
    · intro hne i h1 h2
      rw [hoff2 _ _ (ring_not_interior (Or.inl rfl))]
      exact hring.2.2 (by rw [hne]; rfl) i h1 h2
